import Mathlib

/-!
# Framing protocol with acknowledgement: the three C variants

Shallow embedding of

* `Trabalho2/atividade_entrega_fms.c` (receiver state machine dispatched by a switch),
* `Trabalho3/atvdd_fsm_tabela_de_estados.c` (the same machine, one function per state),
* `T4 - PROTOTHREAD/protothread.c` (transmitter and receiver protothreads over a channel).

Conventions of the embedding.

* A `uint8_t` is a `Nat`; every place where the C code can wrap around carries an
  explicit `% 256`.  Theorems assume that the bytes handed to the code are below 256.
* A C array or pointer to bytes is a function `Nat → Nat` from index to content;
  a store is `store`, a `memcpy` is `memcpy`.
* An array has no bound in the embedding: the bounds of the C arrays are respected by
  the code on the inputs the theorems cover, and the buffer handed to
  `protocol_create_message` is as large as the caller made it.
* Pointer arguments are values here, so the `NULL` guards of the C functions have no
  counterpart: every function is embedded on non-null arguments.
* A function that mutates its arguments returns the new values next to its result.
-/

/-! ## Memory -/

/-- The array `a` after `a[i] = v`. -/
def store (a : Nat → Nat) (i v : Nat) : Nat → Nat :=
  fun j => if j = i then v else a j

/-- The array `dst` after `memcpy(&dst[off], src, n)`. -/
def memcpy (dst : Nat → Nat) (off : Nat) (src : Nat → Nat) (n : Nat) : Nat → Nat :=
  fun j => if off ≤ j ∧ j < off + n then src (j - off) else dst j

/-- The bytes `a[0], ..., a[n-1]` as a list. -/
def bytes (a : Nat → Nat) (n : Nat) : List Nat :=
  (List.range n).map a

/-- The array whose first elements are those of the list, and 0 beyond. -/
def ofList (l : List Nat) : Nat → Nat :=
  fun i => l.getD i 0

/-! ## Trabalho2: switch-based state machine -/

namespace Trabalho2

def STX_BYTE : Nat := 0x02
def ETX_BYTE : Nat := 0x03
def MAX_DATA_SIZE : Nat := 256

def PROTOCOL_SUCCESS : Int := 0
def PROTOCOL_ERROR : Int := -1
def PROTOCOL_WAITING : Int := -2
def PROTOCOL_INVALID_PARAM : Int := -3

inductive ProtocolState where
  | STATE_WAIT_STX
  | STATE_WAIT_QTD
  | STATE_WAIT_DATA
  | STATE_WAIT_CHK
  | STATE_WAIT_ETX
  | STATE_MESSAGE_OK
  | STATE_MESSAGE_ERROR
  deriving DecidableEq, Repr, Inhabited

structure ProtocolHandler where
  state : ProtocolState
  qtd_dados : Nat
  dados : Nat → Nat
  dados_count : Nat
  checksum_recv : Nat
  checksum_calc : Nat
  message_ready : Bool
  deriving Inhabited

/-- The handler after `protocol_init`: every field is overwritten. -/
def protocol_init (_handler : ProtocolHandler) : ProtocolHandler :=
  { state := .STATE_WAIT_STX
    qtd_dados := 0
    dados_count := 0
    checksum_recv := 0
    checksum_calc := 0
    message_ready := false
    dados := fun _ => 0 }

def protocol_reset (handler : ProtocolHandler) : ProtocolHandler :=
  { handler with
    state := .STATE_WAIT_STX
    dados_count := 0
    checksum_calc := 0
    message_ready := false }

/-- One call of `protocol_process_byte`: the return code and the handler afterwards. -/
def protocol_process_byte (handler : ProtocolHandler) (byte : Nat) : Int × ProtocolHandler :=
  match handler.state with
  | .STATE_WAIT_STX =>
    if byte = STX_BYTE then
      (PROTOCOL_WAITING,
        { handler with
          state := .STATE_WAIT_QTD
          dados_count := 0
          checksum_calc := 0
          message_ready := false })
    else
      (PROTOCOL_WAITING, handler)
  | .STATE_WAIT_QTD =>
    if byte > 0 then
      (PROTOCOL_WAITING, { handler with qtd_dados := byte, state := .STATE_WAIT_DATA })
    else
      (PROTOCOL_WAITING, { handler with state := .STATE_WAIT_STX })
  | .STATE_WAIT_DATA =>
    let h1 : ProtocolHandler :=
      { handler with
        dados := store handler.dados handler.dados_count byte
        checksum_calc := (handler.checksum_calc + byte) % 256
        dados_count := (handler.dados_count + 1) % 256 }
    if h1.dados_count ≥ h1.qtd_dados then
      (PROTOCOL_WAITING, { h1 with state := .STATE_WAIT_CHK })
    else
      (PROTOCOL_WAITING, h1)
  | .STATE_WAIT_CHK =>
    (PROTOCOL_WAITING, { handler with checksum_recv := byte, state := .STATE_WAIT_ETX })
  | .STATE_WAIT_ETX =>
    if byte = ETX_BYTE then
      if handler.checksum_calc = handler.checksum_recv then
        (PROTOCOL_SUCCESS, { handler with state := .STATE_MESSAGE_OK, message_ready := true })
      else
        (PROTOCOL_ERROR, { handler with state := .STATE_MESSAGE_ERROR })
    else
      (PROTOCOL_ERROR, { handler with state := .STATE_MESSAGE_ERROR })
  | .STATE_MESSAGE_OK => (PROTOCOL_WAITING, protocol_reset handler)
  | .STATE_MESSAGE_ERROR => (PROTOCOL_WAITING, protocol_reset handler)

/-- The loop `for (uint8_t i = 0; i < qtd; i++) checksum += dados[i];` from index `i` on.
The first argument is the number of iterations left, `qtd - i`; since `i < qtd ≤ 255`
inside the loop, `i++` never wraps. -/
def checksum_loop (dados : Nat → Nat) : Nat → Nat → Nat → Nat
  | 0, _, checksum => checksum
  | left + 1, i, checksum => checksum_loop dados left (i + 1) ((checksum + dados i) % 256)

def protocol_calculate_checksum (dados : Nat → Nat) (qtd : Nat) : Nat :=
  if qtd = 0 then 0 else checksum_loop dados qtd 0 0

/-- The call `protocol_create_message(dados, qtd, buffer, &buffer_size)`: the return code,
the buffer afterwards and the value left in `*buffer_size`. -/
def protocol_create_message (dados : Nat → Nat) (qtd : Nat) (buffer : Nat → Nat)
    (buffer_size : Nat) : Int × (Nat → Nat) × Nat :=
  if qtd = 0 then
    (PROTOCOL_INVALID_PARAM, buffer, buffer_size)
  else
    let checksum := protocol_calculate_checksum dados qtd
    let msg_size := (5 + qtd) % 256
    if buffer_size < msg_size then
      (PROTOCOL_ERROR, buffer, buffer_size)
    else
      let b0 := store buffer 0 STX_BYTE
      let b1 := store b0 1 qtd
      let b2 := memcpy b1 2 dados qtd
      let b3 := store b2 (2 + qtd) checksum
      let b4 := store b3 (3 + qtd) ETX_BYTE
      (PROTOCOL_SUCCESS, b4, msg_size)

def protocol_message_ready (handler : ProtocolHandler) : Bool :=
  handler.message_ready

def protocol_get_data (handler : ProtocolHandler) : Nat → Nat :=
  handler.dados

def protocol_get_data_count (handler : ProtocolHandler) : Nat :=
  handler.qtd_dados

/-- Successive calls of `protocol_process_byte`, one per byte of the list: the return
codes in order and the handler after the last call. -/
def process_bytes (handler : ProtocolHandler) : List Nat → List Int × ProtocolHandler
  | [] => ([], handler)
  | b :: bs =>
    let r := protocol_process_byte handler b
    let rest := process_bytes r.2 bs
    (r.1 :: rest.1, rest.2)

/-- The frame of a payload as the claims describe it: STX, the length, the payload, the
sum of the payload modulo 256, ETX. -/
def frame (payload : List Nat) : List Nat :=
  [STX_BYTE, payload.length] ++ payload ++ [payload.sum % 256, ETX_BYTE]

/-- The handler holds the payload bytes `d` of the frame it is reading: the length byte
was between 1 and 255, `checksum_calc` is the sum of `d` modulo 256 and `dados` starts
with `d`. -/
def payload_so_far (h : ProtocolHandler) (d : List Nat) : Prop :=
  1 ≤ h.qtd_dados ∧ h.qtd_dados ≤ 255 ∧ h.checksum_calc = d.sum % 256
    ∧ ∀ i, i < d.length → h.dados i = d.getD i 0

/-- What the state of a handler says about the bytes `l` fed to it so far: inside a frame,
`l` ends with the part of the frame read up to now, and after `PROTOCOL_SUCCESS` it ends
with a whole well-formed frame. -/
def frame_progress (h : ProtocolHandler) (l : List Nat) : Prop :=
  match h.state with
  | .STATE_WAIT_STX => True
  | .STATE_WAIT_QTD =>
    (∃ pre, l = pre ++ [STX_BYTE]) ∧ h.dados_count = 0 ∧ h.checksum_calc = 0
  | .STATE_WAIT_DATA =>
    ∃ pre d, l = pre ++ STX_BYTE :: h.qtd_dados :: d ∧ d.length = h.dados_count
      ∧ h.dados_count < h.qtd_dados ∧ payload_so_far h d
  | .STATE_WAIT_CHK =>
    ∃ pre d, l = pre ++ STX_BYTE :: h.qtd_dados :: d ∧ d.length = h.qtd_dados
      ∧ payload_so_far h d
  | .STATE_WAIT_ETX =>
    ∃ pre d, l = pre ++ STX_BYTE :: h.qtd_dados :: (d ++ [h.checksum_recv])
      ∧ d.length = h.qtd_dados ∧ payload_so_far h d
  | .STATE_MESSAGE_OK =>
    ∃ pre d, l = pre ++ frame d ∧ d.length = h.qtd_dados ∧ payload_so_far h d
  | .STATE_MESSAGE_ERROR => True

end Trabalho2

/-! ## Trabalho3: one function per state -/

namespace Trabalho3

def STX_BYTE : Nat := 0x02
def ETX_BYTE : Nat := 0x03
def MAX_DATA_SIZE : Nat := 256

def PROTOCOL_SUCCESS : Int := 0
def PROTOCOL_ERROR : Int := -1
def PROTOCOL_WAITING : Int := -2
def PROTOCOL_INVALID_PARAM : Int := -3

/-- The values a pointer of type `EstadoFuncao` takes in the program: the addresses of
the five state functions.  The null pointer is `none` in `ProtocolHandler.estado_atual`. -/
inductive EstadoFuncao where
  | espera_stx
  | espera_qtd
  | espera_dados
  | espera_checksum
  | espera_etx
  deriving DecidableEq, Repr, Inhabited

structure ProtocolHandler where
  estado_atual : Option EstadoFuncao
  qtd_dados : Nat
  dados : Nat → Nat
  dados_count : Nat
  checksum_recv : Nat
  checksum_calc : Nat
  message_ready : Bool
  deriving Inhabited

def espera_stx (handler : ProtocolHandler) (byte : Nat) : Int × ProtocolHandler :=
  if byte = STX_BYTE then
    (PROTOCOL_WAITING,
      { handler with
        estado_atual := some .espera_qtd
        dados_count := 0
        checksum_calc := 0
        message_ready := false })
  else
    (PROTOCOL_WAITING, handler)

def espera_qtd (handler : ProtocolHandler) (byte : Nat) : Int × ProtocolHandler :=
  if byte > 0 then
    (PROTOCOL_WAITING, { handler with qtd_dados := byte, estado_atual := some .espera_dados })
  else
    (PROTOCOL_WAITING, { handler with estado_atual := some .espera_stx })

def espera_dados (handler : ProtocolHandler) (byte : Nat) : Int × ProtocolHandler :=
  let h1 : ProtocolHandler :=
    { handler with
      dados := store handler.dados handler.dados_count byte
      checksum_calc := (handler.checksum_calc + byte) % 256
      dados_count := (handler.dados_count + 1) % 256 }
  if h1.dados_count ≥ h1.qtd_dados then
    (PROTOCOL_WAITING, { h1 with estado_atual := some .espera_checksum })
  else
    (PROTOCOL_WAITING, h1)

def espera_checksum (handler : ProtocolHandler) (byte : Nat) : Int × ProtocolHandler :=
  (PROTOCOL_WAITING, { handler with checksum_recv := byte, estado_atual := some .espera_etx })

def espera_etx (handler : ProtocolHandler) (byte : Nat) : Int × ProtocolHandler :=
  if byte = ETX_BYTE then
    if handler.checksum_calc = handler.checksum_recv then
      (PROTOCOL_SUCCESS, { handler with message_ready := true, estado_atual := some .espera_stx })
    else
      (PROTOCOL_ERROR, { handler with estado_atual := some .espera_stx })
  else
    (PROTOCOL_ERROR, { handler with estado_atual := some .espera_stx })

/-- The call through a function pointer: the function the pointer designates. -/
def EstadoFuncao.call : EstadoFuncao → ProtocolHandler → Nat → Int × ProtocolHandler
  | .espera_stx => Trabalho3.espera_stx
  | .espera_qtd => Trabalho3.espera_qtd
  | .espera_dados => Trabalho3.espera_dados
  | .espera_checksum => Trabalho3.espera_checksum
  | .espera_etx => Trabalho3.espera_etx

def protocol_init (_handler : ProtocolHandler) : ProtocolHandler :=
  { estado_atual := some .espera_stx
    qtd_dados := 0
    dados_count := 0
    checksum_recv := 0
    checksum_calc := 0
    message_ready := false
    dados := fun _ => 0 }

def protocol_process_byte (handler : ProtocolHandler) (byte : Nat) : Int × ProtocolHandler :=
  match handler.estado_atual with
  | none => (PROTOCOL_INVALID_PARAM, handler)
  | some f => f.call handler byte

/-- The loop `for (uint8_t i = 0; i < qtd; i++) checksum += dados[i];` from index `i` on.
The first argument is the number of iterations left, `qtd - i`; since `i < qtd ≤ 255`
inside the loop, `i++` never wraps. -/
def checksum_loop (dados : Nat → Nat) : Nat → Nat → Nat → Nat
  | 0, _, checksum => checksum
  | left + 1, i, checksum => checksum_loop dados left (i + 1) ((checksum + dados i) % 256)

def protocol_calculate_checksum (dados : Nat → Nat) (qtd : Nat) : Nat :=
  if qtd = 0 then 0 else checksum_loop dados qtd 0 0

def protocol_create_message (dados : Nat → Nat) (qtd : Nat) (buffer : Nat → Nat)
    (buffer_size : Nat) : Int × (Nat → Nat) × Nat :=
  if qtd = 0 then
    (PROTOCOL_INVALID_PARAM, buffer, buffer_size)
  else
    let checksum := protocol_calculate_checksum dados qtd
    let msg_size := (5 + qtd) % 256
    if buffer_size < msg_size then
      (PROTOCOL_ERROR, buffer, buffer_size)
    else
      let b0 := store buffer 0 STX_BYTE
      let b1 := store b0 1 qtd
      let b2 := memcpy b1 2 dados qtd
      let b3 := store b2 (2 + qtd) checksum
      let b4 := store b3 (3 + qtd) ETX_BYTE
      (PROTOCOL_SUCCESS, b4, msg_size)

def protocol_message_ready (handler : ProtocolHandler) : Bool :=
  handler.message_ready

def protocol_get_data (handler : ProtocolHandler) : Nat → Nat :=
  handler.dados

def protocol_get_data_count (handler : ProtocolHandler) : Nat :=
  handler.qtd_dados

/-- Successive calls of `protocol_process_byte`, one per byte of the list: the return
codes in order and the handler after the last call. -/
def process_bytes (handler : ProtocolHandler) : List Nat → List Int × ProtocolHandler
  | [] => ([], handler)
  | b :: bs =>
    let r := protocol_process_byte handler b
    let rest := process_bytes r.2 bs
    (r.1 :: rest.1, rest.2)

/-- The frame of a payload as the claims describe it: STX, the length, the payload, the
sum of the payload modulo 256, ETX. -/
def frame (payload : List Nat) : List Nat :=
  [STX_BYTE, payload.length] ++ payload ++ [payload.sum % 256, ETX_BYTE]

end Trabalho3

/-! ## The two state machines side by side -/

/-- The state function of Trabalho3 that stands for a state of Trabalho2.  The two states
`STATE_MESSAGE_OK` and `STATE_MESSAGE_ERROR` have no function of their own: where Trabalho2
enters one of them, Trabalho3 goes back to `espera_stx`. -/
def state_function : Trabalho2.ProtocolState → Trabalho3.EstadoFuncao
  | .STATE_WAIT_STX => .espera_stx
  | .STATE_WAIT_QTD => .espera_qtd
  | .STATE_WAIT_DATA => .espera_dados
  | .STATE_WAIT_CHK => .espera_checksum
  | .STATE_WAIT_ETX => .espera_etx
  | .STATE_MESSAGE_OK => .espera_stx
  | .STATE_MESSAGE_ERROR => .espera_stx

/-- The handler of Trabalho3 with the same fields as a handler of Trabalho2. -/
def function_handler (h : Trabalho2.ProtocolHandler) : Trabalho3.ProtocolHandler :=
  { estado_atual := some (state_function h.state)
    qtd_dados := h.qtd_dados
    dados := h.dados
    dados_count := h.dados_count
    checksum_recv := h.checksum_recv
    checksum_calc := h.checksum_calc
    message_ready := h.message_ready }

/-- A handler of Trabalho2 that is in none of its two terminal states. -/
def running (h : Trabalho2.ProtocolHandler) : Prop :=
  h.state ≠ .STATE_MESSAGE_OK ∧ h.state ≠ .STATE_MESSAGE_ERROR

/-! ## T4: protothreads -/

namespace Protothread

/-- The local continuation of a protothread: 0, or the line of the macro that set it. -/
structure pt_t where
  lc : Nat
  deriving DecidableEq, Repr, Inhabited

def PT_INIT (_pt : pt_t) : pt_t := { lc := 0 }

def STX : Nat := 0x02
def ETX : Nat := 0x03
def ACK : Nat := 0x06
def MAX_DATA_SIZE : Nat := 255
def MAX_PACKET_SIZE : Nat := MAX_DATA_SIZE + 4

inductive protocol_state_t where
  | STATE_IDLE
  | STATE_WAIT_STX
  | STATE_WAIT_QTD
  | STATE_WAIT_DATA
  | STATE_WAIT_CHK
  | STATE_WAIT_ETX
  | STATE_PACKET_READY
  | STATE_ERROR
  deriving DecidableEq, Repr, Inhabited

structure transmitter_t where
  pt : pt_t
  data : Nat → Nat
  data_size : Nat
  packet : Nat → Nat
  packet_size : Nat
  packet_sent : Bool
  ack_received : Bool
  timeout : Bool
  deriving Inhabited

structure receiver_t where
  pt : pt_t
  state : protocol_state_t
  buffer : Nat → Nat
  expected_size : Nat
  received_size : Nat
  checksum : Nat
  packet_ready : Bool
  error : Bool
  send_ack : Bool
  deriving Inhabited

structure communication_channel_t where
  tx_buffer : Nat → Nat
  tx_size : Nat
  tx_ready : Bool
  rx_buffer : Nat → Nat
  rx_size : Nat
  rx_ready : Bool
  simulate_error : Bool
  deriving Inhabited

/-- The static `channel` at program start: static storage is zeroed. -/
def channel : communication_channel_t :=
  { tx_buffer := fun _ => 0, tx_size := 0, tx_ready := false
    rx_buffer := fun _ => 0, rx_size := 0, rx_ready := false, simulate_error := false }

/-- The static `tx` at program start: static storage is zeroed. -/
def tx : transmitter_t :=
  { pt := { lc := 0 }, data := fun _ => 0, data_size := 0, packet := fun _ => 0
    packet_size := 0, packet_sent := false, ack_received := false, timeout := false }

/-- The static `rx` at program start: static storage is zeroed. -/
def rx : receiver_t :=
  { pt := { lc := 0 }, state := .STATE_IDLE, buffer := fun _ => 0, expected_size := 0
    received_size := 0, checksum := 0, packet_ready := false, error := false
    send_ack := false }

/-- The loop `for (int i = 0; i < size; i++) checksum ^= data[i];` from index `i` on.
The first argument is the number of iterations left, `size - i`. -/
def checksum_loop (data : Nat → Nat) : Nat → Nat → Nat → Nat
  | 0, _, checksum => checksum
  | left + 1, i, checksum => checksum_loop data left (i + 1) (checksum ^^^ data i)

def calculate_checksum (data : Nat → Nat) (size : Nat) : Nat :=
  checksum_loop data size 0 0

def init_transmitter (tx : transmitter_t) : transmitter_t :=
  { tx with
    pt := PT_INIT tx.pt
    packet_sent := false
    ack_received := false
    timeout := false }

def init_receiver (rx : receiver_t) : receiver_t :=
  { rx with
    pt := PT_INIT rx.pt
    state := .STATE_WAIT_STX
    received_size := 0
    packet_ready := false
    error := false
    send_ack := false }

def init_channel (ch : communication_channel_t) : communication_channel_t :=
  { ch with
    tx_ready := false
    rx_ready := false
    simulate_error := false
    tx_size := 0
    rx_size := 0 }

/-- Line of the `PT_WAIT_UNTIL` of `transmitter_thread`. -/
def LINE_TX_WAIT : Nat := 146
/-- Line of the `PT_WAIT_UNTIL` of `receiver_thread`. -/
def LINE_RX_WAIT : Nat := 169
/-- Line of the `PT_YIELD` of `receiver_thread`. -/
def LINE_RX_YIELD : Nat := 241

/-- The body of `transmitter_thread` from `case 146:` (inside `PT_WAIT_UNTIL`) to the end. -/
def transmitter_wait (tx : transmitter_t) (channel : communication_channel_t) :
    Int × transmitter_t × communication_channel_t :=
  if !(tx.ack_received || tx.timeout) then
    (1, tx, channel)
  else if tx.ack_received then
    (0, { tx with packet_sent := false, ack_received := false, pt := { lc := 0 } }, channel)
  else
    (1, { tx with pt := { lc := 0 } }, channel)

/-- One call of `transmitter_thread(&tx)`: the return value, the transmitter and the
global channel afterwards.  The `switch` of `PT_BEGIN` has the labels 0 and 146 and no
default: any other continuation falls to `PT_END`. -/
def transmitter_thread (tx : transmitter_t) (channel : communication_channel_t) :
    Int × transmitter_t × communication_channel_t :=
  if tx.pt.lc = 0 then
    let p0 := store tx.packet 0 STX
    let p1 := store p0 1 tx.data_size
    let p2 := memcpy p1 2 tx.data tx.data_size
    let p3 := store p2 (2 + tx.data_size) (calculate_checksum tx.data tx.data_size)
    let p4 := store p3 (3 + tx.data_size) ETX
    let packet_size := (4 + tx.data_size) % 256
    let channel1 : communication_channel_t :=
      { channel with
        tx_buffer := memcpy channel.tx_buffer 0 p4 packet_size
        tx_size := packet_size
        tx_ready := true }
    let tx1 : transmitter_t :=
      { tx with
        packet := p4
        packet_size := packet_size
        packet_sent := true
        pt := { lc := LINE_TX_WAIT } }
    transmitter_wait tx1 channel1
  else if tx.pt.lc = LINE_TX_WAIT then
    transmitter_wait tx channel
  else
    (0, { tx with pt := { lc := 0 } }, channel)

/-- The `switch (rx->state)` of the receiver loop, for one byte. -/
def receiver_byte (rx : receiver_t) (byte : Nat) : receiver_t :=
  match rx.state with
  | .STATE_WAIT_STX =>
    if byte = STX then
      { rx with buffer := store rx.buffer 0 byte, received_size := 1, state := .STATE_WAIT_QTD }
    else
      rx
  | .STATE_WAIT_QTD =>
    let rx1 : receiver_t :=
      { rx with
        buffer := store rx.buffer rx.received_size byte
        received_size := (rx.received_size + 1) % 256
        expected_size := byte }
    if rx1.expected_size = 0 ∨ rx1.expected_size > MAX_DATA_SIZE then
      { rx1 with state := .STATE_ERROR }
    else
      { rx1 with state := .STATE_WAIT_DATA }
  | .STATE_WAIT_DATA =>
    let rx1 : receiver_t :=
      { rx with
        buffer := store rx.buffer rx.received_size byte
        received_size := (rx.received_size + 1) % 256 }
    if rx1.received_size ≥ 2 + rx1.expected_size then
      { rx1 with state := .STATE_WAIT_CHK }
    else
      rx1
  | .STATE_WAIT_CHK =>
    { rx with
      buffer := store rx.buffer rx.received_size byte
      received_size := (rx.received_size + 1) % 256
      checksum := byte
      state := .STATE_WAIT_ETX }
  | .STATE_WAIT_ETX =>
    let rx1 : receiver_t :=
      { rx with
        buffer := store rx.buffer rx.received_size byte
        received_size := (rx.received_size + 1) % 256 }
    let rx2 : receiver_t :=
      if byte = ETX then
        let calculated_checksum :=
          calculate_checksum (fun i => rx1.buffer (2 + i)) rx1.expected_size
        if calculated_checksum = rx1.checksum then
          { rx1 with packet_ready := true, send_ack := true }
        else
          { rx1 with error := true }
      else
        { rx1 with error := true }
    { rx2 with state := .STATE_WAIT_STX }
  | .STATE_ERROR => { rx with state := .STATE_WAIT_STX, received_size := 0 }
  | .STATE_IDLE => rx
  | .STATE_PACKET_READY => rx

/-- The loop `for (int i = 0; i < channel.tx_size; i++)` of the receiver from index `i`
on; the first argument is the number of iterations left, `channel.tx_size - i`. -/
def receiver_loop (tx_buffer : Nat → Nat) : Nat → Nat → receiver_t → receiver_t
  | 0, _, rx => rx
  | left + 1, i, rx => receiver_loop tx_buffer left (i + 1) (receiver_byte rx (tx_buffer i))

/-- One call of `receiver_thread(&rx)`: the return value, the receiver and the global
channel afterwards.  The labels 0, 169 and 241 of the `switch` all lead to the
`PT_WAIT_UNTIL` at the head of the `while (1)`; any other continuation falls to `PT_END`. -/
def receiver_thread (rx : receiver_t) (channel : communication_channel_t) :
    Int × receiver_t × communication_channel_t :=
  if rx.pt.lc = 0 ∨ rx.pt.lc = LINE_RX_WAIT ∨ rx.pt.lc = LINE_RX_YIELD then
    let rx0 : receiver_t := { rx with pt := { lc := LINE_RX_WAIT } }
    if !channel.tx_ready then
      (1, rx0, channel)
    else
      let rx1 := receiver_loop channel.tx_buffer channel.tx_size 0 rx0
      let channel1 : communication_channel_t := { channel with tx_ready := false }
      if rx1.send_ack then
        (1, { rx1 with send_ack := false, pt := { lc := LINE_RX_YIELD } },
          { channel1 with rx_buffer := store channel1.rx_buffer 0 ACK, rx_size := 1, rx_ready := true })
      else
        (1, { rx1 with pt := { lc := LINE_RX_YIELD } }, channel1)
  else
    (0, { rx with pt := { lc := 0 } }, channel)

/-- The function `setup_test_environment`: the three statics after their init functions. -/
def setup_test_environment (channel : communication_channel_t) (tx : transmitter_t)
    (rx : receiver_t) : communication_channel_t × transmitter_t × receiver_t :=
  (init_channel channel, init_transmitter tx, init_receiver rx)

/-- The channel after a frame of `size` bytes has been put into the tx slot, as the tests
do: `memcpy(channel.tx_buffer, packet, size); channel.tx_size = size; channel.tx_ready = true`. -/
def publish (channel : communication_channel_t) (packet : Nat → Nat) (size : Nat) :
    communication_channel_t :=
  { channel with tx_buffer := memcpy channel.tx_buffer 0 packet size, tx_size := size, tx_ready := true }

/-- The receiver after the bytes of the list have gone through the `switch`, in order. -/
def receive_bytes (rx : receiver_t) (l : List Nat) : receiver_t :=
  l.foldl receiver_byte rx

/-- The XOR of the bytes of a list. -/
def xor_fold (l : List Nat) : Nat :=
  l.foldr (· ^^^ ·) 0

/-- The frame of a payload as the claims describe it: STX, the length, the payload, the
XOR of the payload, ETX. -/
def frame (payload : List Nat) : List Nat :=
  [STX, payload.length] ++ payload ++ [xor_fold payload, ETX]

/-- The bytes that a transmitter step starting from the beginning of the thread puts in
the tx slot: the first `(4 + data_size) % 256` bytes of STX, size, data, checksum, ETX. -/
def published_frame (data : Nat → Nat) (data_size : Nat) : List Nat :=
  (STX :: data_size :: (bytes data data_size ++ [calculate_checksum data data_size, ETX])).take
    ((4 + data_size) % 256)

/-- A driver that never delivers an acknowledgement.  Before each step the timer has left
`timeout` at the given value and the receiver side has left the channel as given; then
`transmitter_thread` runs.  The entry of a step is the continuation it started from, the
value it returned and the channel after it. -/
def run_without_ack (t : transmitter_t) :
    List (Bool × communication_channel_t) → List (Nat × Int × communication_channel_t)
  | [] => []
  | (timeout, ch) :: rest =>
    (t.pt.lc, (transmitter_thread { t with timeout := timeout } ch).1,
        (transmitter_thread { t with timeout := timeout } ch).2.2)
      :: run_without_ack (transmitter_thread { t with timeout := timeout } ch).2.1 rest

/-- Steps of a transmitter that nothing but `transmitter_thread` touches.  Before each step
the receiver side has left the channel as given.  The entry of a step is the continuation
it started from, the value it returned, and the transmitter and the channel after it. -/
def run_untouched (t : transmitter_t) :
    List communication_channel_t
      → List (Nat × Int × transmitter_t × communication_channel_t)
  | [] => []
  | ch :: rest =>
    (t.pt.lc, (transmitter_thread t ch).1, (transmitter_thread t ch).2.1,
        (transmitter_thread t ch).2.2)
      :: run_untouched (transmitter_thread t ch).2.1 rest

/-- Whether a list starts with a complete well-formed frame: STX, a length `n ≥ 1`, `n`
bytes, their XOR, ETX. -/
def frame_at : List Nat → Bool
  | s :: n :: rest =>
    decide (s = STX) && decide (1 ≤ n) && decide (n + 2 ≤ rest.length)
      && decide (rest.getD n 0 = xor_fold (rest.take n)) && decide (rest.getD (n + 1) 0 = ETX)
  | _ => false

/-- Whether a list holds a complete well-formed frame as a block of consecutive bytes. -/
def contains_frame : List Nat → Bool
  | [] => false
  | b :: l => frame_at (b :: l) || contains_frame l

end Protothread

/-! ## Arrays as lists -/

theorem bytes_length (a : Nat → Nat) (n : Nat) : (bytes a n).length = n := by
  simp [bytes]

theorem bytes_congr (a b : Nat → Nat) (n : Nat) (h : ∀ i, i < n → a i = b i) :
    bytes a n = bytes b n := by
  unfold bytes
  apply List.map_congr_left
  intro i hi
  exact h i (List.mem_range.mp hi)

theorem bytes_getD (a : Nat → Nat) (n i : Nat) (h : i < n) : (bytes a n).getD i 0 = a i := by
  simp [bytes, List.getD_eq_getElem?_getD, List.getElem?_map, List.getElem?_range h]

/-- The first `n + 4` bytes of an array, split as a frame is: two header bytes, `n` bytes
from index 2 on, two trailer bytes. -/
theorem bytes_add_four (a : Nat → Nat) (n : Nat) :
    bytes a (n + 4)
      = a 0 :: a 1 :: (bytes (fun i => a (2 + i)) n ++ [a (2 + n), a (3 + n)]) := by
  have e1 : List.range (n + 4) = List.range (n + 2) ++ [n + 2, n + 3] := by
    rw [show n + 4 = (n + 3) + 1 from rfl, List.range_succ,
      show n + 3 = (n + 2) + 1 from rfl, List.range_succ]
    simp
  have e2 : List.range (n + 2) = 0 :: 1 :: (List.range n).map (fun i => 2 + i) := by
    rw [show n + 2 = (n + 1) + 1 from rfl, List.range_succ_eq_map, List.range_succ_eq_map]
    simp only [List.map_cons, List.map_map, List.cons.injEq, true_and]
    apply List.map_congr_left
    intro i _
    simp only [Function.comp, Nat.succ_eq_add_one]
    omega
  unfold bytes
  rw [e1, e2]
  simp only [List.map_append, List.map_cons, List.map_map, List.map_nil, List.cons_append,
    Function.comp_def]
  simp only [Nat.add_comm n 2, Nat.add_comm n 3]

theorem sum_set_add (p : List Nat) (i v : Nat) (hi : i < p.length) :
    (p.set i v).sum + p.getD i 0 = p.sum + v := by
  induction p generalizing i with
  | nil => simp at hi
  | cons x xs ih =>
    cases i with
    | zero =>
      simp only [List.set_cons_zero, List.sum_cons, List.getD_cons_zero]
      omega
    | succ j =>
      have h := ih j (by simpa using hi)
      simp only [List.set_cons_succ, List.sum_cons, List.getD_cons_succ]
      omega

theorem getD_lt_of_forall (p : List Nat) (i : Nat) (hb : ∀ b ∈ p, b < 256) :
    p.getD i 0 < 256 := by
  by_cases hi : i < p.length
  · rw [List.getD_eq_getElem _ _ hi]
    exact hb _ (List.getElem_mem hi)
  · rw [List.getD_eq_default _ _ (by omega)]
    decide

theorem bytes_ofList (p : List Nat) : bytes (ofList p) p.length = p := by
  apply List.ext_getElem
  · simp [bytes]
  · intro i h1 h2
    simp [bytes, ofList, List.getD_eq_getElem?_getD, List.getElem?_eq_getElem h2]

theorem bytes_memcpy_zero (dst src : Nat → Nat) (n : Nat) :
    bytes (memcpy dst 0 src n) n = bytes src n := by
  apply bytes_congr
  intro i hi
  simp [memcpy, hi]

/-- The bytes of a buffer into which a frame has been written field by field. -/
theorem bytes_framed (b d : Nat → Nat) (x n c e : Nat) :
    bytes (store (store (memcpy (store (store b 0 x) 1 n) 2 d n) (2 + n) c) (3 + n) e) (n + 4)
      = x :: n :: (bytes d n ++ [c, e]) := by
  rw [bytes_add_four]
  have a0 : ¬ (0 = 3 + n) := by omega
  have a1 : ¬ (0 = 2 + n) := by omega
  have a2 : ¬ (1 = 3 + n) := by omega
  have a3 : ¬ (1 = 2 + n) := by omega
  have a4 : ¬ (2 + n = 3 + n) := by omega
  have hmid : bytes (fun i =>
      store (store (memcpy (store (store b 0 x) 1 n) 2 d n) (2 + n) c) (3 + n) e (2 + i)) n
      = bytes d n := by
    apply bytes_congr
    intro i hi
    have b1 : ¬ (2 + i = 3 + n) := by omega
    have b2 : ¬ (2 + i = 2 + n) := by omega
    simp [store, memcpy, b1, b2, hi]
  rw [hmid]
  simp [store, memcpy, a0, a1, a2, a3, a4]

theorem xor_foldr_set (p : List Nat) (i v : Nat) (hi : i < p.length) :
    (p.set i v).foldr (· ^^^ ·) 0 ^^^ p.getD i 0 = p.foldr (· ^^^ ·) 0 ^^^ v := by
  induction p generalizing i with
  | nil => simp at hi
  | cons x xs ih =>
    cases i with
    | zero =>
      simp only [List.set_cons_zero, List.foldr_cons, List.getD_cons_zero]
      rw [Nat.xor_comm v, Nat.xor_assoc, Nat.xor_comm v x, ← Nat.xor_assoc,
        Nat.xor_comm _ x]
    | succ j =>
      have h := ih j (by simpa using hi)
      simp only [List.set_cons_succ, List.foldr_cons, List.getD_cons_succ]
      rw [Nat.xor_assoc, h, Nat.xor_assoc]

/-! ## Checksums -/

theorem Trabalho2.sum_loop_eq (dados : Nat → Nat) (left i c : Nat) :
    Trabalho2.checksum_loop dados left i (c % 256)
      = (c + ((List.range' i left).map dados).sum) % 256 := by
  induction left generalizing i c with
  | zero => simp [Trabalho2.checksum_loop]
  | succ k ih =>
    rw [Trabalho2.checksum_loop, ih (i + 1) (c % 256 + dados i)]
    simp only [List.range'_succ, List.map_cons, List.sum_cons]
    omega

theorem Trabalho2.protocol_calculate_checksum_sum (dados : Nat → Nat) (qtd : Nat) :
    Trabalho2.protocol_calculate_checksum dados qtd = (bytes dados qtd).sum % 256 := by
  unfold Trabalho2.protocol_calculate_checksum bytes
  split
  · next h => subst h; simp
  · have h := Trabalho2.sum_loop_eq dados qtd 0 0
    simpa [List.range_eq_range'] using h

theorem Trabalho3.sum_loop_eq_t3 (dados : Nat → Nat) (left i c : Nat) :
    Trabalho3.checksum_loop dados left i (c % 256)
      = (c + ((List.range' i left).map dados).sum) % 256 := by
  induction left generalizing i c with
  | zero => simp [Trabalho3.checksum_loop]
  | succ k ih =>
    rw [Trabalho3.checksum_loop, ih (i + 1) (c % 256 + dados i)]
    simp only [List.range'_succ, List.map_cons, List.sum_cons]
    omega

theorem Trabalho3.protocol_calculate_checksum_sum_t3 (dados : Nat → Nat) (qtd : Nat) :
    Trabalho3.protocol_calculate_checksum dados qtd = (bytes dados qtd).sum % 256 := by
  unfold Trabalho3.protocol_calculate_checksum bytes
  split
  · next h => subst h; simp
  · have h := Trabalho3.sum_loop_eq_t3 dados qtd 0 0
    simpa [List.range_eq_range'] using h

theorem Protothread.xor_loop_eq (data : Nat → Nat) (left i c : Nat) :
    Protothread.checksum_loop data left i c
      = c ^^^ ((List.range' i left).map data).foldr (· ^^^ ·) 0 := by
  induction left generalizing i c with
  | zero => simp [Protothread.checksum_loop]
  | succ k ih =>
    rw [Protothread.checksum_loop, ih (i + 1) (c ^^^ data i)]
    simp only [List.range'_succ, List.map_cons, List.foldr_cons, Nat.xor_assoc]

theorem Protothread.calculate_checksum_eq (data : Nat → Nat) (size : Nat) :
    Protothread.calculate_checksum data size = (bytes data size).foldr (· ^^^ ·) 0 := by
  unfold Protothread.calculate_checksum bytes
  rw [Protothread.xor_loop_eq, List.range_eq_range']
  simp

/-- C9: for every array and every size, `calculate_checksum(data, size)` is the XOR of
`data[0 .. size)`, and it is 0 when `size` is 0. -/
theorem Protothread.calculate_checksum_is_xor (data : Nat → Nat) (size : Nat) :
    Protothread.calculate_checksum data size = (bytes data size).foldr (· ^^^ ·) 0
      ∧ Protothread.calculate_checksum data 0 = 0 :=
  ⟨Protothread.calculate_checksum_eq data size, rfl⟩

/-- C10: in Trabalho2 and in Trabalho3, `protocol_calculate_checksum(dados, qtd)` is the sum
of `dados[0 .. qtd)` modulo 256; it is 0 for `qtd == 0`, and 0x60 for 0x10, 0x20, 0x30. -/
theorem protocol_calculate_checksum_is_sum (dados : Nat → Nat) (qtd : Nat) :
    (Trabalho2.protocol_calculate_checksum dados qtd = (bytes dados qtd).sum % 256
      ∧ Trabalho3.protocol_calculate_checksum dados qtd = (bytes dados qtd).sum % 256)
    ∧ (Trabalho2.protocol_calculate_checksum dados 0 = 0
      ∧ Trabalho3.protocol_calculate_checksum dados 0 = 0)
    ∧ (Trabalho2.protocol_calculate_checksum (ofList [0x10, 0x20, 0x30]) 3 = 0x60
      ∧ Trabalho3.protocol_calculate_checksum (ofList [0x10, 0x20, 0x30]) 3 = 0x60) :=
  ⟨⟨Trabalho2.protocol_calculate_checksum_sum dados qtd,
      Trabalho3.protocol_calculate_checksum_sum_t3 dados qtd⟩,
    ⟨rfl, rfl⟩, ⟨by decide, by decide⟩⟩

/-! ## Trabalho2: `protocol_create_message` -/

namespace Trabalho2

theorem protocol_create_message_success (dados buffer : Nat → Nat) (qtd buffer_size : Nat)
    (hs : (protocol_create_message dados qtd buffer buffer_size).1 = PROTOCOL_SUCCESS) :
    qtd ≠ 0 ∧ ¬ buffer_size < (5 + qtd) % 256
      ∧ protocol_create_message dados qtd buffer buffer_size
        = (PROTOCOL_SUCCESS,
            store (store (memcpy (store (store buffer 0 STX_BYTE) 1 qtd) 2 dados qtd)
              (2 + qtd) (protocol_calculate_checksum dados qtd)) (3 + qtd) ETX_BYTE,
            (5 + qtd) % 256) := by
  unfold protocol_create_message at hs ⊢
  by_cases h0 : qtd = 0
  · simp [h0, PROTOCOL_INVALID_PARAM, PROTOCOL_SUCCESS] at hs
  · by_cases h1 : buffer_size < (5 + qtd) % 256
    · simp [h0, h1, PROTOCOL_ERROR, PROTOCOL_SUCCESS] at hs
    · simp [h0, h1]

/-- C6: when `protocol_create_message` returns `PROTOCOL_SUCCESS` for `qtd` bytes, the
buffer holds STX, `qtd`, the payload, the checksum of the payload and ETX, in this order. -/
theorem protocol_create_message_layout (dados buffer : Nat → Nat) (qtd buffer_size : Nat)
    (hs : (protocol_create_message dados qtd buffer buffer_size).1 = PROTOCOL_SUCCESS) :
    (protocol_create_message dados qtd buffer buffer_size).2.1 0 = STX_BYTE
      ∧ (protocol_create_message dados qtd buffer buffer_size).2.1 1 = qtd
      ∧ (∀ i, i < qtd →
          (protocol_create_message dados qtd buffer buffer_size).2.1 (2 + i) = dados i)
      ∧ (protocol_create_message dados qtd buffer buffer_size).2.1 (2 + qtd)
          = protocol_calculate_checksum dados qtd
      ∧ (protocol_create_message dados qtd buffer buffer_size).2.1 (3 + qtd) = ETX_BYTE := by
  obtain ⟨h0, -, he⟩ := protocol_create_message_success dados buffer qtd buffer_size hs
  rw [he]
  refine ⟨?_, ?_, ?_, ?_, ?_⟩
  · have h1 : ¬ (0 = 3 + qtd) := by omega
    have h2 : ¬ (0 = 2 + qtd) := by omega
    simp [store, memcpy, h1, h2]
  · have h1 : ¬ (1 = 3 + qtd) := by omega
    have h2 : ¬ (1 = 2 + qtd) := by omega
    simp [store, memcpy, h1, h2]
  · intro i hi
    have h1 : ¬ (2 + i = 3 + qtd) := by omega
    have h2 : ¬ (2 + i = 2 + qtd) := by omega
    simp [store, memcpy, h1, h2, hi]
  · simp [store]
  · simp [store]

/-- Witness of C6: the call of `test_create_message`. -/
theorem protocol_create_message_layout_witness :
    (protocol_create_message (ofList [0xAA, 0xBB, 0xCC]) 3 (fun _ => 0) 10).1 = PROTOCOL_SUCCESS
      ∧ (protocol_create_message (ofList [0xAA, 0xBB, 0xCC]) 3 (fun _ => 0) 10).2.1 0 = STX_BYTE
      ∧ (protocol_create_message (ofList [0xAA, 0xBB, 0xCC]) 3 (fun _ => 0) 10).2.1 (3 + 3)
          = ETX_BYTE :=
  ⟨by decide,
    (protocol_create_message_layout (ofList [0xAA, 0xBB, 0xCC]) (fun _ => 0) 3 10 (by decide)).1,
    (protocol_create_message_layout (ofList [0xAA, 0xBB, 0xCC]) (fun _ => 0) 3 10
      (by decide)).2.2.2.2⟩

/-- C7, at the call of `test_create_message`: the frame written is STX, 3, three data bytes,
checksum, ETX, so it ends at index 6 and is 3 + 4 = 7 bytes long, but the size reported
through `*buffer_size` is 8. -/
theorem protocol_create_message_reports_five_more :
    (protocol_create_message (ofList [0xAA, 0xBB, 0xCC]) 3 (fun _ => 0) 10).1 = PROTOCOL_SUCCESS
      ∧ bytes (protocol_create_message (ofList [0xAA, 0xBB, 0xCC]) 3 (fun _ => 0) 10).2.1 8
          = [0x02, 3, 0xAA, 0xBB, 0xCC, 0x31, 0x03, 0]
      ∧ (protocol_create_message (ofList [0xAA, 0xBB, 0xCC]) 3 (fun _ => 0) 10).2.2 = 8
      ∧ (protocol_create_message (ofList [0xAA, 0xBB, 0xCC]) 3 (fun _ => 0) 10).2.2 ≠ 3 + 4 := by
  decide

/-- C8 as stated fails: a 7-byte frame for a capacity of 2 is refused with
`PROTOCOL_ERROR`, not with `PROTOCOL_INVALID_PARAM`. -/
theorem protocol_create_message_capacity_code :
    ¬ ((protocol_create_message (ofList [0xAA, 0xBB, 0xCC]) 3 (fun _ => 0) 2).1
        = PROTOCOL_INVALID_PARAM)
      ∧ (protocol_create_message (ofList [0xAA, 0xBB, 0xCC]) 3 (fun _ => 0) 2).1
        = PROTOCOL_ERROR := by
  decide

/-- C8 amended: `protocol_create_message` returns `PROTOCOL_INVALID_PARAM` when `qtd == 0`,
and `PROTOCOL_ERROR` when `1 ≤ qtd ≤ 250` and the frame of `qtd + 4` bytes exceeds the
capacity passed in `*buffer_size`; in both cases buffer and `*buffer_size` are unchanged. -/
theorem protocol_create_message_failure (dados buffer : Nat → Nat) (qtd buffer_size : Nat) :
    (qtd = 0 → protocol_create_message dados qtd buffer buffer_size
        = (PROTOCOL_INVALID_PARAM, buffer, buffer_size))
      ∧ (1 ≤ qtd → qtd ≤ 250 → buffer_size < qtd + 4 →
          protocol_create_message dados qtd buffer buffer_size
            = (PROTOCOL_ERROR, buffer, buffer_size)) := by
  constructor
  · intro h0
    simp [protocol_create_message, h0]
  · intro h1 h2 h3
    have h0 : qtd ≠ 0 := by omega
    have h4 : buffer_size < (5 + qtd) % 256 := by omega
    simp [protocol_create_message, h0, h4]

/-- Witness of C8 amended: an empty payload, and three bytes for a capacity of 2. -/
theorem protocol_create_message_failure_witness :
    protocol_create_message (ofList []) 0 (fun _ => 0) 10
        = (PROTOCOL_INVALID_PARAM, fun _ => 0, 10)
      ∧ protocol_create_message (ofList [0xAA, 0xBB, 0xCC]) 3 (fun _ => 0) 2
        = (PROTOCOL_ERROR, fun _ => 0, 2) :=
  ⟨(protocol_create_message_failure (ofList []) (fun _ => 0) 0 10).1 rfl,
    (protocol_create_message_failure (ofList [0xAA, 0xBB, 0xCC]) (fun _ => 0) 3 2).2
      (by decide) (by decide) (by decide)⟩

end Trabalho2

/-! ## Trabalho2: a frame through the state machine -/

namespace Trabalho2

theorem process_bytes_append (h : ProtocolHandler) (a b : List Nat) :
    process_bytes h (a ++ b)
      = ((process_bytes h a).1 ++ (process_bytes (process_bytes h a).2 b).1,
          (process_bytes (process_bytes h a).2 b).2) := by
  induction a generalizing h with
  | nil => simp [process_bytes]
  | cons x xs ih => simp [process_bytes, ih]

/-- One data byte: it is stored at `dados_count`, added to `checksum_calc`, and the state
becomes `STATE_WAIT_CHK` exactly when the count reaches `qtd_dados`. -/
theorem protocol_process_byte_data (h : ProtocolHandler) (b : Nat)
    (hst : h.state = .STATE_WAIT_DATA) (hc : h.dados_count < h.qtd_dados)
    (hq : h.qtd_dados ≤ 255) :
    protocol_process_byte h b
      = (PROTOCOL_WAITING,
          { h with
            state :=
              if h.dados_count + 1 = h.qtd_dados then .STATE_WAIT_CHK else .STATE_WAIT_DATA
            dados := store h.dados h.dados_count b
            checksum_calc := (h.checksum_calc + b) % 256
            dados_count := h.dados_count + 1 }) := by
  obtain ⟨st, q, d, c, r, cs, m⟩ := h
  simp only at hst hc hq
  subst hst
  have hw : (c + 1) % 256 = c + 1 := Nat.mod_eq_of_lt (by omega)
  by_cases hlast : c + 1 = q
  · subst hlast
    simp only [protocol_process_byte, hw, ge_iff_le, Nat.le_refl, if_true]
  · have h3 : ¬ (q ≤ c + 1) := by omega
    simp only [protocol_process_byte, hw, ge_iff_le, h3, if_false, hlast]

/-- The data phase: in `STATE_WAIT_DATA` with room for the bytes `p`, every call returns
`PROTOCOL_WAITING`, the bytes are stored from `dados_count` on and summed into
`checksum_calc`, and the state becomes `STATE_WAIT_CHK` exactly when the count reaches
`qtd_dados`. -/
theorem process_bytes_data (p : List Nat) (h : ProtocolHandler)
    (hst : h.state = .STATE_WAIT_DATA) (hc : h.dados_count < h.qtd_dados)
    (hle : h.dados_count + p.length ≤ h.qtd_dados) (hq : h.qtd_dados ≤ 255)
    (hcs : h.checksum_calc < 256) :
    process_bytes h p
      = (List.replicate p.length PROTOCOL_WAITING,
          { h with
            state :=
              if h.dados_count + p.length = h.qtd_dados then .STATE_WAIT_CHK
              else .STATE_WAIT_DATA
            dados := fun j =>
              if h.dados_count ≤ j ∧ j < h.dados_count + p.length then
                p.getD (j - h.dados_count) 0
              else h.dados j
            checksum_calc := (h.checksum_calc + p.sum) % 256
            dados_count := h.dados_count + p.length }) := by
  induction p generalizing h with
  | nil =>
    obtain ⟨st, q, d, c, r, cs, m⟩ := h
    simp only at hst hc hle hq hcs
    subst hst
    have h1 : ¬ (c = q) := by omega
    have h2 : cs % 256 = cs := Nat.mod_eq_of_lt hcs
    have h3 : d = fun j => if c ≤ j ∧ j < c then 0 else d j := by
      funext j
      have : ¬ (c ≤ j ∧ j < c) := by omega
      simp [this]
    simp [process_bytes, h1, h2, ← h3]
  | cons b p ih =>
    rw [process_bytes, protocol_process_byte_data h b hst hc hq]
    obtain ⟨st, q, d, c, r, cs, m⟩ := h
    simp only [List.length_cons] at hst hc hle hq hcs
    subst hst
    by_cases hlast : c + 1 = q
    · have hp : p = [] := List.eq_nil_of_length_eq_zero (by omega)
      subst hp
      simp only [process_bytes, hlast, if_true, List.length_cons, List.length_nil,
        List.replicate_succ, List.replicate_zero, List.sum_cons, List.sum_nil, Nat.add_zero,
        Prod.mk.injEq, true_and, ProtocolHandler.mk.injEq, and_true, Nat.zero_add]
      funext j
      simp only [store]
      by_cases hj : j = c
      · have : c ≤ c ∧ c < q := by omega
        simp [hj, this]
      · have : ¬ (c ≤ j ∧ j < q) := by omega
        simp [hj, this]
    · have h4 : c + 1 < q := by omega
      have := ih { state := .STATE_WAIT_DATA, qtd_dados := q, dados := store d c b,
                   dados_count := c + 1, checksum_recv := r,
                   checksum_calc := (cs + b) % 256, message_ready := m }
        rfl h4 (by simp only; omega) hq (Nat.mod_lt _ (by decide))
      simp only [hlast, if_false, this]
      simp only [List.length_cons, List.replicate_succ, List.sum_cons, Prod.mk.injEq,
        true_and, ProtocolHandler.mk.injEq, and_true]
      refine ⟨?_, ?_, ?_, ?_⟩
      · have e : c + 1 + p.length = c + (p.length + 1) := by omega
        rw [e]
      · funext j
        simp only [store]
        by_cases hj : j = c
        · have h5 : ¬ (c + 1 ≤ c ∧ c < c + 1 + p.length) := by omega
          have h6 : c ≤ c ∧ c < c + (p.length + 1) := by omega
          simp [hj, h5, h6]
        · by_cases hin : c + 1 ≤ j ∧ j < c + 1 + p.length
          · have hin2 : c ≤ j ∧ j < c + (p.length + 1) := by omega
            have e : j - c = (j - (c + 1)) + 1 := by omega
            simp [hin, hin2, e]
          · have hin2 : ¬ (c ≤ j ∧ j < c + (p.length + 1)) := by omega
            simp [hin, hin2, hj]
      · omega
      · omega

/-- A whole frame with payload `p`, checksum byte `c` and closing byte `e` through a
handler fresh from `protocol_init`: the codes returned and the handler at the end. -/
theorem process_bytes_frame (h0 : ProtocolHandler) (p : List Nat) (c e : Nat)
    (h1 : 1 ≤ p.length) (h2 : p.length ≤ 255) :
    process_bytes (protocol_init h0) (STX_BYTE :: p.length :: (p ++ [c, e]))
      = (List.replicate (p.length + 3) PROTOCOL_WAITING
            ++ [if e = ETX_BYTE ∧ p.sum % 256 = c then PROTOCOL_SUCCESS else PROTOCOL_ERROR],
          { state :=
              if e = ETX_BYTE ∧ p.sum % 256 = c then .STATE_MESSAGE_OK
              else .STATE_MESSAGE_ERROR
            qtd_dados := p.length
            dados := fun j => if j < p.length then p.getD j 0 else 0
            dados_count := p.length
            checksum_recv := c
            checksum_calc := p.sum % 256
            message_ready := decide (e = ETX_BYTE ∧ p.sum % 256 = c) }) := by
  have hpos : 0 < p.length := h1
  have hne : p.length ≠ 0 := by omega
  have hd := process_bytes_data p
    { state := .STATE_WAIT_DATA, qtd_dados := p.length, dados := fun _ => 0,
      dados_count := 0, checksum_recv := 0, checksum_calc := 0, message_ready := false }
    rfl hpos (by simp) h2 (by simp)
  simp only [Nat.zero_add, if_true, Nat.zero_le, true_and, Nat.sub_zero] at hd
  have hr : List.replicate (p.length + 3) PROTOCOL_WAITING
      = PROTOCOL_WAITING :: PROTOCOL_WAITING
          :: (List.replicate p.length PROTOCOL_WAITING ++ [PROTOCOL_WAITING]) := by
    rw [← List.replicate_succ', ← List.replicate_succ, ← List.replicate_succ]
  rw [hr]
  simp only [process_bytes, protocol_process_byte, protocol_init, if_true, gt_iff_lt, hpos,
    process_bytes_append, hd]
  by_cases he : e = ETX_BYTE
  · by_cases hc : p.sum % 256 = c
    · simp [he, hc]
    · simp [he, hc]
  · simp [he]

theorem protocol_create_message_bytes (dados buffer : Nat → Nat) (qtd buffer_size : Nat)
    (hs : (protocol_create_message dados qtd buffer buffer_size).1 = PROTOCOL_SUCCESS) :
    bytes (protocol_create_message dados qtd buffer buffer_size).2.1 (qtd + 4)
      = STX_BYTE :: qtd
          :: (bytes dados qtd ++ [(bytes dados qtd).sum % 256, ETX_BYTE]) := by
  obtain ⟨-, -, he⟩ := protocol_create_message_success dados buffer qtd buffer_size hs
  rw [he, bytes_framed, protocol_calculate_checksum_sum]

/-- C1: when `protocol_create_message` succeeds for a payload of `qtd` bytes, `1 ≤ qtd ≤ 255`,
feeding `buffer[0 .. qtd+4)` byte by byte to a handler fresh from `protocol_init` returns
`PROTOCOL_WAITING` for the first `qtd + 3` bytes and `PROTOCOL_SUCCESS` for the last; then
`protocol_message_ready` is true, `protocol_get_data_count` is `qtd` and `dados[0 .. qtd)`
is the payload. -/
theorem protocol_create_then_process (h0 : ProtocolHandler) (dados buffer : Nat → Nat)
    (qtd buffer_size : Nat) (h1 : 1 ≤ qtd) (h2 : qtd ≤ 255)
    (hs : (protocol_create_message dados qtd buffer buffer_size).1 = PROTOCOL_SUCCESS) :
    (process_bytes (protocol_init h0)
        (bytes (protocol_create_message dados qtd buffer buffer_size).2.1 (qtd + 4))).1
      = List.replicate (qtd + 3) PROTOCOL_WAITING ++ [PROTOCOL_SUCCESS]
    ∧ protocol_message_ready (process_bytes (protocol_init h0)
        (bytes (protocol_create_message dados qtd buffer buffer_size).2.1 (qtd + 4))).2 = true
    ∧ protocol_get_data_count (process_bytes (protocol_init h0)
        (bytes (protocol_create_message dados qtd buffer buffer_size).2.1 (qtd + 4))).2 = qtd
    ∧ ∀ i, i < qtd →
        protocol_get_data (process_bytes (protocol_init h0)
          (bytes (protocol_create_message dados qtd buffer buffer_size).2.1 (qtd + 4))).2 i
          = dados i := by
  have hl : (bytes dados qtd).length = qtd := bytes_length dados qtd
  have hf := process_bytes_frame h0 (bytes dados qtd) ((bytes dados qtd).sum % 256) ETX_BYTE
    (by omega) (by omega)
  rw [hl] at hf
  rw [protocol_create_message_bytes dados buffer qtd buffer_size hs, hf]
  refine ⟨by simp, by simp [protocol_message_ready], by simp [protocol_get_data_count], ?_⟩
  intro i hi
  simp only [protocol_get_data, hi, if_true]
  exact bytes_getD dados qtd i hi

/-- Witness of C1: the payload 0x10, 0x20 of `test_receive_valid_message`, framed by
`protocol_create_message` into a buffer of capacity 10. -/
theorem protocol_create_then_process_witness :
    (process_bytes (protocol_init default)
        (bytes (protocol_create_message (ofList [0x10, 0x20]) 2 (fun _ => 0) 10).2.1 (2 + 4))).1
      = List.replicate (2 + 3) PROTOCOL_WAITING ++ [PROTOCOL_SUCCESS] :=
  (protocol_create_then_process default (ofList [0x10, 0x20]) (fun _ => 0) 2 10
    (by decide) (by decide) (by decide)).1

theorem sum_frame_eq (p : List Nat) :
    frame p = STX_BYTE :: p.length :: (p ++ [p.sum % 256, ETX_BYTE]) := by
  simp [frame]

/-- C3: for a payload `p` of 1 to 255 bytes framed as STX, length, `p`, sum checksum, ETX,
replacing the byte at position `k` of the frame, a payload byte or the checksum byte, by a
different byte `v` makes a fresh handler return `PROTOCOL_WAITING` on every byte but the
last and `PROTOCOL_ERROR` on the last; it never returns `PROTOCOL_SUCCESS`, and
`protocol_message_ready` is false at the end. -/
theorem corrupted_frame_is_rejected (h0 : ProtocolHandler) (p : List Nat) (k v : Nat)
    (h1 : 1 ≤ p.length) (h2 : p.length ≤ 255) (hb : ∀ b ∈ p, b < 256)
    (hk1 : 2 ≤ k) (hk2 : k ≤ p.length + 2) (hv : v < 256)
    (hne : (frame p).getD k 0 ≠ v) :
    (process_bytes (protocol_init h0) ((frame p).set k v)).1
      = List.replicate (p.length + 3) PROTOCOL_WAITING ++ [PROTOCOL_ERROR]
    ∧ PROTOCOL_SUCCESS ∉ (process_bytes (protocol_init h0) ((frame p).set k v)).1
    ∧ protocol_message_ready
        (process_bytes (protocol_init h0) ((frame p).set k v)).2 = false := by
  obtain ⟨j, rfl⟩ : ∃ j, k = j + 2 := ⟨k - 2, by omega⟩
  rw [sum_frame_eq] at hne ⊢
  simp only [List.set_cons_succ, List.getD_cons_succ] at hne ⊢
  have key : ∀ (q : List Nat) (c : Nat), q.length = p.length → q.sum % 256 ≠ c →
      (process_bytes (protocol_init h0) (STX_BYTE :: p.length :: (q ++ [c, ETX_BYTE]))).1
        = List.replicate (p.length + 3) PROTOCOL_WAITING ++ [PROTOCOL_ERROR]
      ∧ PROTOCOL_SUCCESS ∉
          (process_bytes (protocol_init h0) (STX_BYTE :: p.length :: (q ++ [c, ETX_BYTE]))).1
      ∧ protocol_message_ready
          (process_bytes (protocol_init h0)
            (STX_BYTE :: p.length :: (q ++ [c, ETX_BYTE]))).2 = false := by
    intro q c hq hc
    have hf := process_bytes_frame h0 q c ETX_BYTE (by omega) (by omega)
    rw [hq] at hf
    rw [hf]
    refine ⟨by simp [hc], ?_, by simp [protocol_message_ready, hc]⟩
    simp [hc, PROTOCOL_SUCCESS, PROTOCOL_WAITING, PROTOCOL_ERROR, List.mem_replicate]
  by_cases hj : j < p.length
  · rw [List.set_append_left _ _ hj]
    rw [List.getD_append _ _ _ _ hj] at hne
    have hs := sum_set_add p j v hj
    have hx := getD_lt_of_forall p j hb
    exact key (p.set j v) (p.sum % 256) (by simp) (by omega)
  · have hj2 : j = p.length := by omega
    subst hj2
    rw [List.set_append_right _ _ (Nat.le_refl _)]
    rw [List.getD_append_right _ _ _ _ (Nat.le_refl _)] at hne
    simp only [Nat.sub_self, List.set_cons_zero, List.getD_cons_zero] at hne ⊢
    exact key p v rfl hne

/-- Witness of C3: the frame of `test_invalid_checksum`, payload 0x10, 0x20 with the
checksum byte, at position 4, replaced by 0xFF. -/
theorem corrupted_frame_is_rejected_witness :
    (process_bytes (protocol_init default) ((frame [0x10, 0x20]).set 4 0xFF)).1
      = List.replicate (2 + 3) PROTOCOL_WAITING ++ [PROTOCOL_ERROR] :=
  (corrupted_frame_is_rejected default [0x10, 0x20] 4 0xFF (by decide) (by decide)
    (by decide) (by decide) (by decide) (by decide) (by decide)).1

end Trabalho2

/-! ## T4: a frame through the receiver -/

namespace Protothread

theorem calculate_checksum_eq_xor_fold (data : Nat → Nat) (size : Nat) :
    calculate_checksum data size = xor_fold (bytes data size) :=
  calculate_checksum_eq data size

theorem receiver_loop_eq (buf : Nat → Nat) (left i : Nat) (rx : receiver_t) :
    receiver_loop buf left i rx = receive_bytes rx ((List.range' i left).map buf) := by
  induction left generalizing i rx with
  | zero => simp [receiver_loop, receive_bytes]
  | succ k ih =>
    rw [receiver_loop, ih]
    simp [receive_bytes, List.range'_succ]

theorem receiver_loop_bytes (buf : Nat → Nat) (n : Nat) (rx : receiver_t) :
    receiver_loop buf n 0 rx = receive_bytes rx (bytes buf n) := by
  rw [receiver_loop_eq, bytes, List.range_eq_range']

theorem receive_bytes_append (rx : receiver_t) (a b : List Nat) :
    receive_bytes rx (a ++ b) = receive_bytes (receive_bytes rx a) b := by
  simp [receive_bytes]

theorem receive_bytes_cons (rx : receiver_t) (b : Nat) (l : List Nat) :
    receive_bytes rx (b :: l) = receive_bytes (receiver_byte rx b) l := rfl

theorem receive_bytes_nil (rx : receiver_t) : receive_bytes rx [] = rx := rfl

/-- One data byte: it is stored at `received_size`, and the state becomes `STATE_WAIT_CHK`
exactly when `received_size` reaches `2 + expected_size`. -/
theorem receiver_byte_data (rx : receiver_t) (b : Nat)
    (hst : rx.state = .STATE_WAIT_DATA) (hr : rx.received_size < 2 + rx.expected_size)
    (hw : rx.received_size < 255) :
    receiver_byte rx b
      = { rx with
          state :=
            if rx.received_size + 1 = 2 + rx.expected_size then .STATE_WAIT_CHK
            else .STATE_WAIT_DATA
          buffer := store rx.buffer rx.received_size b
          received_size := rx.received_size + 1 } := by
  obtain ⟨pt, st, buf, n, r, cs, pr, er, sa⟩ := rx
  simp only at hst hr hw
  subst hst
  have hm : (r + 1) % 256 = r + 1 := Nat.mod_eq_of_lt (by omega)
  by_cases hlast : r + 1 = 2 + n
  · have h3 : 2 + n ≤ r + 1 := by omega
    rw [if_pos hlast]
    simp only [receiver_byte, hm, ge_iff_le, h3, if_true]
  · have h3 : ¬ (2 + n ≤ r + 1) := by omega
    simp only [receiver_byte, hm, ge_iff_le, h3, if_false, hlast]

/-- The data phase of the receiver: the bytes `p` are stored from `received_size` on, and
the state becomes `STATE_WAIT_CHK` exactly when `received_size` reaches
`2 + expected_size`. -/
theorem receive_bytes_data (p : List Nat) (rx : receiver_t)
    (hst : rx.state = .STATE_WAIT_DATA) (hr : rx.received_size < 2 + rx.expected_size)
    (hle : rx.received_size + p.length ≤ 2 + rx.expected_size)
    (hw : rx.received_size + p.length ≤ 255) :
    receive_bytes rx p
      = { rx with
          state :=
            if rx.received_size + p.length = 2 + rx.expected_size then .STATE_WAIT_CHK
            else .STATE_WAIT_DATA
          buffer := memcpy rx.buffer rx.received_size (ofList p) p.length
          received_size := rx.received_size + p.length } := by
  induction p generalizing rx with
  | nil =>
    obtain ⟨pt, st, buf, n, r, cs, pr, er, sa⟩ := rx
    simp only at hst hr hle hw
    subst hst
    have h1 : ¬ (r = 2 + n) := by omega
    have h3 : memcpy buf r (ofList []) 0 = buf := by
      funext j
      have : ¬ (r ≤ j ∧ j < r + 0) := by omega
      simp [memcpy, this]
    simp [receive_bytes_nil, h1, h3]
  | cons b p ih =>
    rw [receive_bytes_cons, receiver_byte_data rx b hst hr (by simp at hw; omega)]
    obtain ⟨pt, st, buf, n, r, cs, pr, er, sa⟩ := rx
    simp only [List.length_cons] at hst hr hle hw
    subst hst
    have hcopy : memcpy (store buf r b) (r + 1) (ofList p) p.length
        = memcpy buf r (ofList (b :: p)) (p.length + 1) := by
      funext j
      simp only [store, memcpy, ofList]
      by_cases hj : j = r
      · have h5 : ¬ (r + 1 ≤ r ∧ r < r + 1 + p.length) := by omega
        have h6 : r ≤ r ∧ r < r + (p.length + 1) := by omega
        simp [hj, h5, h6]
      · by_cases hin : r + 1 ≤ j ∧ j < r + 1 + p.length
        · have hin2 : r ≤ j ∧ j < r + (p.length + 1) := by omega
          have e : j - r = (j - (r + 1)) + 1 := by omega
          simp [hin, hin2, e]
        · have hin2 : ¬ (r ≤ j ∧ j < r + (p.length + 1)) := by omega
          simp [hin, hin2, hj]
    by_cases hlast : r + 1 = 2 + n
    · have hp : p = [] := List.eq_nil_of_length_eq_zero (by omega)
      subst hp
      simp only [hlast, if_true, receive_bytes_nil, List.length_cons, List.length_nil,
        Nat.zero_add, receiver_t.mk.injEq, true_and, and_true]
      have hcopy1 := hcopy
      simp only [List.length_nil, Nat.zero_add] at hcopy1
      rw [← hcopy1]
      funext j
      have : ¬ (r + 1 ≤ j ∧ j < r + 1 + 0) := by omega
      simp [memcpy, this]
    · have h4 : r + 1 < 2 + n := by omega
      have := ih { pt := pt, state := .STATE_WAIT_DATA, buffer := store buf r b,
                   expected_size := n, received_size := r + 1, checksum := cs,
                   packet_ready := pr, error := er, send_ack := sa }
        rfl h4 (by simp only; omega) (by simp only; omega)
      simp only [hlast, if_false, this]
      simp only [List.length_cons, receiver_t.mk.injEq, true_and, and_true]
      refine ⟨?_, hcopy, ?_⟩
      · have e : r + 1 + p.length = r + (p.length + 1) := by omega
        rw [e]
      · omega

/-- The checksum the receiver computes over `buffer[2 .. 2+n)` once a frame with payload
`p` is in its buffer. -/
theorem calculate_checksum_buffer (buf : Nat → Nat) (p : List Nat) (x y c e : Nat) :
    calculate_checksum
        (fun i => store (store (memcpy (store (store buf 0 x) 1 y) 2 (ofList p) p.length)
          (2 + p.length) c) (3 + p.length) e (2 + i)) p.length
      = xor_fold p := by
  rw [calculate_checksum_eq_xor_fold]
  have hb : bytes (fun i => store (store (memcpy (store (store buf 0 x) 1 y) 2 (ofList p)
      p.length) (2 + p.length) c) (3 + p.length) e (2 + i)) p.length
      = bytes (ofList p) p.length := by
    apply bytes_congr
    intro i hi
    have b1 : ¬ (2 + i = 3 + p.length) := by omega
    have b2 : ¬ (2 + i = 2 + p.length) := by omega
    simp [store, memcpy, b1, b2, hi]
  rw [hb, bytes_ofList]

/-- A whole frame with payload `p`, checksum byte `c` and closing byte `e` through the
`switch` of a receiver that waits for STX: the receiver at the end. -/
theorem receive_bytes_frame (rx0 : receiver_t) (p : List Nat) (c e : Nat)
    (hst : rx0.state = .STATE_WAIT_STX) (h1 : 1 ≤ p.length) (h2 : p.length + 4 ≤ 255) :
    receive_bytes rx0 (STX :: p.length :: (p ++ [c, e]))
      = { rx0 with
          state := .STATE_WAIT_STX
          buffer :=
            store (store (memcpy (store (store rx0.buffer 0 STX) 1 p.length) 2 (ofList p)
              p.length) (2 + p.length) c) (3 + p.length) e
          expected_size := p.length
          received_size := 4 + p.length
          checksum := c
          packet_ready := if e = ETX ∧ xor_fold p = c then true else rx0.packet_ready
          error := if e = ETX ∧ xor_fold p = c then rx0.error else true
          send_ack := if e = ETX ∧ xor_fold p = c then true else rx0.send_ack } := by
  obtain ⟨pt, st, buf, n, r, cs, pr, er, sa⟩ := rx0
  simp only at hst
  subst hst
  have hd := receive_bytes_data p
    { pt := pt, state := .STATE_WAIT_DATA, buffer := store (store buf 0 STX) 1 p.length,
      expected_size := p.length, received_size := 2, checksum := cs, packet_ready := pr,
      error := er, send_ack := sa }
    rfl (by simp only; omega) (by simp only; omega) (by simp only; omega)
  simp only [if_true] at hd
  have hne : ¬ (p.length = 0 ∨ p.length > MAX_DATA_SIZE) := by
    simp only [MAX_DATA_SIZE]; omega
  have hA : receiver_byte (receiver_byte
      { pt := pt, state := .STATE_WAIT_STX, buffer := buf, expected_size := n,
        received_size := r, checksum := cs, packet_ready := pr, error := er,
        send_ack := sa } STX) p.length
      = { pt := pt, state := .STATE_WAIT_DATA, buffer := store (store buf 0 STX) 1 p.length,
          expected_size := p.length, received_size := 2, checksum := cs, packet_ready := pr,
          error := er, send_ack := sa } := by
    simp only [receiver_byte, if_true, hne, if_false]
  have hm3 : (2 + p.length + 1) % 256 = 3 + p.length := by omega
  have hm4 : (3 + p.length + 1) % 256 = 4 + p.length := by omega
  have hx := calculate_checksum_buffer buf p STX p.length c e
  rw [receive_bytes_cons, receive_bytes_cons, receive_bytes_append, hA, hd]
  simp only [receive_bytes_cons, receive_bytes_nil, receiver_byte, hm3, hm4, hx]
  by_cases he : e = ETX
  · by_cases hc : xor_fold p = c
    · simp [he, hc]
    · simp [he, hc]
  · simp [he]

theorem xor_frame_eq (p : List Nat) :
    frame p = STX :: p.length :: (p ++ [xor_fold p, ETX]) := by
  simp [frame]

/-- A step of the receiver that finds the tx slot ready: the bytes of the slot go through
the `switch` in order, the slot is released and an acknowledgement is published when
`send_ack` is set. -/
theorem receiver_thread_ready (rx : receiver_t) (ch : communication_channel_t)
    (hlc : rx.pt.lc = 0 ∨ rx.pt.lc = LINE_RX_WAIT ∨ rx.pt.lc = LINE_RX_YIELD)
    (hready : ch.tx_ready = true) :
    receiver_thread rx ch
      = if (receive_bytes { rx with pt := { lc := LINE_RX_WAIT } }
            (bytes ch.tx_buffer ch.tx_size)).send_ack = true then
          (1,
            { receive_bytes { rx with pt := { lc := LINE_RX_WAIT } }
                (bytes ch.tx_buffer ch.tx_size) with
              send_ack := false, pt := { lc := LINE_RX_YIELD } },
            { ch with
              tx_ready := false, rx_buffer := store ch.rx_buffer 0 ACK, rx_size := 1
              rx_ready := true })
        else
          (1,
            { receive_bytes { rx with pt := { lc := LINE_RX_WAIT } }
                (bytes ch.tx_buffer ch.tx_size) with
              pt := { lc := LINE_RX_YIELD } },
            { ch with tx_ready := false }) := by
  simp only [receiver_thread, hlc, if_true, hready, Bool.not_true, Bool.false_eq_true,
    if_false, receiver_loop_bytes]

/-- A fresh receiver that is handed, in one publish, a frame-shaped sequence whose closing
byte is not ETX or whose checksum byte is not the XOR of its payload: it flags an error,
has no packet ready and publishes no acknowledgement. -/
theorem receiver_thread_bad_frame (rx0 : receiver_t) (ch0 : communication_channel_t)
    (q : List Nat) (c e : Nat) (h1 : 1 ≤ q.length) (h2 : q.length + 4 ≤ 255)
    (hbad : ¬ (e = ETX ∧ xor_fold q = c)) :
    (receiver_thread (init_receiver rx0)
        (publish (init_channel ch0) (ofList (STX :: q.length :: (q ++ [c, e])))
          (q.length + 4))).2.1.error = true
    ∧ (receiver_thread (init_receiver rx0)
        (publish (init_channel ch0) (ofList (STX :: q.length :: (q ++ [c, e])))
          (q.length + 4))).2.1.packet_ready = false
    ∧ (receiver_thread (init_receiver rx0)
        (publish (init_channel ch0) (ofList (STX :: q.length :: (q ++ [c, e])))
          (q.length + 4))).2.2.rx_ready = false := by
  have hlen : (STX :: q.length :: (q ++ [c, e])).length = q.length + 4 := by simp
  have hbytes : bytes (memcpy (init_channel ch0).tx_buffer 0
      (ofList (STX :: q.length :: (q ++ [c, e]))) (q.length + 4)) (q.length + 4)
      = STX :: q.length :: (q ++ [c, e]) := by
    rw [bytes_memcpy_zero, ← hlen, bytes_ofList]
  have hf := receive_bytes_frame
    { init_receiver rx0 with pt := { lc := LINE_RX_WAIT } } q c e rfl h1 h2
  rw [receiver_thread_ready _ _ (Or.inl rfl) rfl]
  simp only [publish, hbytes, hf, hbad, if_false]
  simp [init_receiver, init_channel]

/-- C4: a well-formed frame STX, n, payload, XOR checksum, ETX of at most 255 bytes in which
the byte at position `k`, a payload byte, the checksum byte or the ETX byte, is replaced by
a different byte `v`, delivered in one publish to a fresh receiver: after one step of
`receiver_thread`, `rx.error` is true, `rx.packet_ready` is false and no acknowledgement
is published. -/
theorem receiver_rejects_corrupted_frame (rx0 : receiver_t) (ch0 : communication_channel_t)
    (p : List Nat) (k v : Nat) (h1 : 1 ≤ p.length) (h2 : p.length + 4 ≤ 255)
    (_hb : ∀ b ∈ p, b < 256) (hk1 : 2 ≤ k) (hk2 : k ≤ p.length + 3) (_hv : v < 256)
    (hne : (frame p).getD k 0 ≠ v) :
    (receiver_thread (init_receiver rx0)
        (publish (init_channel ch0) (ofList ((frame p).set k v)) (p.length + 4))).2.1.error
      = true
    ∧ (receiver_thread (init_receiver rx0)
        (publish (init_channel ch0) (ofList ((frame p).set k v))
          (p.length + 4))).2.1.packet_ready = false
    ∧ (receiver_thread (init_receiver rx0)
        (publish (init_channel ch0) (ofList ((frame p).set k v))
          (p.length + 4))).2.2.rx_ready = false := by
  obtain ⟨j, rfl⟩ : ∃ j, k = j + 2 := ⟨k - 2, by omega⟩
  rw [xor_frame_eq] at hne ⊢
  simp only [List.set_cons_succ, List.getD_cons_succ] at hne ⊢
  by_cases hj : j < p.length
  · rw [List.set_append_left _ _ hj]
    rw [List.getD_append _ _ _ _ hj] at hne
    have hs := xor_foldr_set p j v hj
    have hbad : ¬ (ETX = ETX ∧ xor_fold (p.set j v) = xor_fold p) := by
      rintro ⟨-, hx⟩
      unfold xor_fold at hx
      rw [hx] at hs
      exact hne (Nat.xor_right_inj.mp hs)
    have := receiver_thread_bad_frame rx0 ch0 (p.set j v) (xor_fold p) ETX
      (by simpa using h1) (by simpa using h2) hbad
    simpa using this
  · rw [List.set_append_right _ _ (by omega)]
    rw [List.getD_append_right _ _ _ _ (by omega)] at hne
    by_cases hj2 : j = p.length
    · subst hj2
      simp only [Nat.sub_self, List.set_cons_zero, List.getD_cons_zero] at hne ⊢
      exact receiver_thread_bad_frame rx0 ch0 p v ETX h1 h2 (fun h => hne h.2)
    · have hj3 : j - p.length = 1 := by omega
      simp only [hj3, List.set_cons_succ, List.set_cons_zero, List.getD_cons_succ,
        List.getD_cons_zero] at hne ⊢
      exact receiver_thread_bad_frame rx0 ch0 p (xor_fold p) v h1 h2
        (fun h => hne h.1.symm)

/-- Witness of C4: the frame of `test_receiver_invalid_checksum`, payload 0x41, 0x42 with the
checksum byte, at position 4, replaced by 0xFF. -/
theorem receiver_rejects_corrupted_frame_witness :
    (receiver_thread (init_receiver rx)
        (publish (init_channel channel) (ofList ((frame [0x41, 0x42]).set 4 0xFF))
          (2 + 4))).2.1.error = true :=
  (receiver_rejects_corrupted_frame rx channel [0x41, 0x42] 4 0xFF (by decide) (by decide)
    (by decide) (by decide) (by decide) (by decide) (by decide)).1

end Protothread

/-! ## T4: the transmitter and the complete cycle -/

namespace Protothread

/-- The first step of a transmitter whose continuation is 0 and whose `ack_received` and
`timeout` are false: the packet is built and published, and the thread suspends at the
`PT_WAIT_UNTIL`. -/
theorem transmitter_thread_first (t : transmitter_t) (ch : communication_channel_t)
    (hlc : t.pt.lc = 0) (hack : t.ack_received = false) (hto : t.timeout = false) :
    transmitter_thread t ch
      = (1,
          { t with
            packet :=
              store (store (memcpy (store (store t.packet 0 STX) 1 t.data_size) 2 t.data
                t.data_size) (2 + t.data_size) (calculate_checksum t.data t.data_size))
                (3 + t.data_size) ETX
            packet_size := (4 + t.data_size) % 256
            packet_sent := true
            pt := { lc := LINE_TX_WAIT } },
          { ch with
            tx_buffer :=
              memcpy ch.tx_buffer 0
                (store (store (memcpy (store (store t.packet 0 STX) 1 t.data_size) 2 t.data
                  t.data_size) (2 + t.data_size) (calculate_checksum t.data t.data_size))
                  (3 + t.data_size) ETX)
                ((4 + t.data_size) % 256)
            tx_size := (4 + t.data_size) % 256
            tx_ready := true }) := by
  simp [transmitter_thread, transmitter_wait, hlc, hack, hto]

/-- C5: the first step of a freshly initialised transmitter with `data_size = n`,
`1 ≤ n ≤ 255`, returns 1, sets `packet_sent` and `channel.tx_ready`, and leaves in
`tx.packet` STX, `n`, the payload, `calculate_checksum(payload, n)` and ETX; for the payload
0x11, 0x22, 0x33 the packet is 0x02, 0x03, 0x11, 0x22, 0x33, 0x00, 0x03. -/
theorem transmitter_thread_builds_packet (t : transmitter_t) (ch : communication_channel_t)
    (hlc : t.pt.lc = 0) (hack : t.ack_received = false) (hto : t.timeout = false)
    (h1 : 1 ≤ t.data_size) (_h2 : t.data_size ≤ 255) :
    (transmitter_thread t ch).1 = 1
    ∧ (transmitter_thread t ch).2.1.packet_sent = true
    ∧ (transmitter_thread t ch).2.2.tx_ready = true
    ∧ (transmitter_thread t ch).2.1.packet 0 = STX
    ∧ (transmitter_thread t ch).2.1.packet 1 = t.data_size
    ∧ (∀ i, i < t.data_size → (transmitter_thread t ch).2.1.packet (2 + i) = t.data i)
    ∧ (transmitter_thread t ch).2.1.packet (2 + t.data_size)
        = calculate_checksum t.data t.data_size
    ∧ (transmitter_thread t ch).2.1.packet (3 + t.data_size) = ETX
    ∧ (t.data_size = 3 → bytes t.data 3 = [0x11, 0x22, 0x33] →
        bytes (transmitter_thread t ch).2.1.packet 7
          = [0x02, 0x03, 0x11, 0x22, 0x33, 0x00, 0x03]) := by
  rw [transmitter_thread_first t ch hlc hack hto]
  refine ⟨rfl, rfl, rfl, ?_, ?_, ?_, ?_, ?_, ?_⟩
  · have a1 : ¬ (0 = 3 + t.data_size) := by omega
    have a2 : ¬ (0 = 2 + t.data_size) := by omega
    simp [store, memcpy, a1, a2]
  · have a1 : ¬ (1 = 3 + t.data_size) := by omega
    have a2 : ¬ (1 = 2 + t.data_size) := by omega
    simp [store, memcpy, a1, a2]
  · intro i hi
    have b1 : ¬ (2 + i = 3 + t.data_size) := by omega
    have b2 : ¬ (2 + i = 2 + t.data_size) := by omega
    simp [store, memcpy, b1, b2, hi]
  · simp [store]
  · simp [store]
  · intro h3 hd
    simp only [h3]
    rw [show (7 : Nat) = 3 + 4 from rfl, bytes_framed, calculate_checksum_eq_xor_fold, hd]
    decide

/-- Witness of C5: the transmitter of `test_transmitter_packet_creation`. -/
theorem transmitter_thread_builds_packet_witness :
    bytes (transmitter_thread
        { init_transmitter tx with data := ofList [0x11, 0x22, 0x33], data_size := 3 }
        (init_channel channel)).2.1.packet 7
      = [0x02, 0x03, 0x11, 0x22, 0x33, 0x00, 0x03] :=
  (transmitter_thread_builds_packet
    { init_transmitter tx with data := ofList [0x11, 0x22, 0x33], data_size := 3 }
    (init_channel channel) rfl rfl rfl (by decide) (by decide)).2.2.2.2.2.2.2.2 rfl
    (by decide)

/-- The complete cycle for payloads of at most 251 bytes, whose frame fits the 8-bit
`packet_size`: one transmitter step and one receiver step leave the packet ready, no
error, the payload in `rx.buffer[2 ..]` and an acknowledgement in the rx slot; with
`ack_received` set, the next transmitter step returns 0. -/
theorem complete_cycle_small (t : transmitter_t) (rx0 : receiver_t)
    (ch0 : communication_channel_t)
    (hlc : t.pt.lc = 0) (hack : t.ack_received = false) (hto : t.timeout = false)
    (h1 : 1 ≤ t.data_size) (h2 : t.data_size ≤ 251) :
    (receiver_thread (init_receiver rx0)
        (transmitter_thread t (init_channel ch0)).2.2).2.1.packet_ready = true
    ∧ (receiver_thread (init_receiver rx0)
        (transmitter_thread t (init_channel ch0)).2.2).2.1.error = false
    ∧ (∀ i, i < t.data_size →
        (receiver_thread (init_receiver rx0)
          (transmitter_thread t (init_channel ch0)).2.2).2.1.buffer (2 + i) = t.data i)
    ∧ (receiver_thread (init_receiver rx0)
        (transmitter_thread t (init_channel ch0)).2.2).2.2.rx_ready = true
    ∧ (receiver_thread (init_receiver rx0)
        (transmitter_thread t (init_channel ch0)).2.2).2.2.rx_buffer 0 = ACK
    ∧ (transmitter_thread
        { (transmitter_thread t (init_channel ch0)).2.1 with ack_received := true }
        (receiver_thread (init_receiver rx0)
          (transmitter_thread t (init_channel ch0)).2.2).2.2).1 = 0 := by
  have hm : (4 + t.data_size) % 256 = t.data_size + 4 := by omega
  have hl : (bytes t.data t.data_size).length = t.data_size := bytes_length _ _
  have hf := receive_bytes_frame
    { init_receiver rx0 with pt := { lc := LINE_RX_WAIT } } (bytes t.data t.data_size)
    (calculate_checksum t.data t.data_size) ETX rfl (by omega) (by omega)
  rw [hl] at hf
  have hok : ETX = ETX ∧ xor_fold (bytes t.data t.data_size)
      = calculate_checksum t.data t.data_size :=
    ⟨rfl, (calculate_checksum_eq_xor_fold _ _).symm⟩
  rw [transmitter_thread_first t _ hlc hack hto, receiver_thread_ready _ _ (Or.inl rfl) rfl]
  simp only [hm, bytes_memcpy_zero, bytes_framed, hf, hok, and_self, if_true]
  refine ⟨?_, ?_, ?_, ?_, ?_, ?_⟩
  · trivial
  · simp [init_receiver]
  · intro i hi
    have b1 : ¬ (2 + i = 3 + t.data_size) := by omega
    have b2 : ¬ (2 + i = 2 + t.data_size) := by omega
    have e : (bytes t.data t.data_size).getD i 0 = t.data i := bytes_getD _ _ _ hi
    have hin : 2 ≤ 2 + i ∧ 2 + i < 2 + t.data_size := by omega
    have e2 : 2 + i - 2 = i := by omega
    simp only [store, memcpy, b1, b2, if_false, ofList, hin, and_self, if_true, e2]
    exact e
  · trivial
  · simp [store]
  · simp [transmitter_thread, transmitter_wait, LINE_TX_WAIT]

/-- C2, at a payload of 252 zero bytes: `packet_size` is `(4 + 252) % 256 = 0`, so the
transmitter publishes an empty tx slot, and after the receiver step no packet is ready and
no acknowledgement is in the rx slot. -/
theorem complete_cycle_fails_at_252 :
    (transmitter_thread { init_transmitter tx with data := fun _ => 0, data_size := 252 }
        (init_channel channel)).1 = 1
    ∧ (transmitter_thread { init_transmitter tx with data := fun _ => 0, data_size := 252 }
        (init_channel channel)).2.2.tx_size = 0
    ∧ (receiver_thread (init_receiver rx)
        (transmitter_thread { init_transmitter tx with data := fun _ => 0, data_size := 252 }
          (init_channel channel)).2.2).2.1.packet_ready = false
    ∧ (receiver_thread (init_receiver rx)
        (transmitter_thread { init_transmitter tx with data := fun _ => 0, data_size := 252 }
          (init_channel channel)).2.2).2.2.rx_ready = false := by
  decide

end Protothread

/-! ## Trabalho2: garbage, transitions and reset -/

namespace Trabalho2

/-- Bytes other than STX leave a handler that waits for STX as it is. -/
theorem process_bytes_garbage (h : ProtocolHandler) (l : List Nat)
    (hst : h.state = .STATE_WAIT_STX) (hl : ∀ b ∈ l, b ≠ STX_BYTE) :
    process_bytes h l = (List.replicate l.length PROTOCOL_WAITING, h) := by
  induction l with
  | nil => rfl
  | cons b l ih =>
    have hb : b ≠ STX_BYTE := hl b (List.mem_cons_self b l)
    have hstep : protocol_process_byte h b = (PROTOCOL_WAITING, h) := by
      simp [protocol_process_byte, hst, hb]
    have ih2 := ih (fun x hx => hl x (List.mem_cons_of_mem b hx))
    simp [process_bytes, hstep, ih2, List.replicate_succ]

/-- STX and a length byte `n > 0` take a handler that waits for STX to the data phase. -/
theorem process_bytes_header (h : ProtocolHandler) (n : Nat)
    (hst : h.state = .STATE_WAIT_STX) (hn : 0 < n) :
    process_bytes h [STX_BYTE, n]
      = ([PROTOCOL_WAITING, PROTOCOL_WAITING],
          { h with
            state := .STATE_WAIT_DATA
            qtd_dados := n
            dados_count := 0
            checksum_calc := 0
            message_ready := false }) := by
  simp [process_bytes, protocol_process_byte, hst, hn]

/-- STX, the length and `k ≤ length` bytes of the payload `p`, from a handler that waits
for STX. -/
theorem process_bytes_payload (h : ProtocolHandler) (n : Nat) (p : List Nat)
    (hst : h.state = .STATE_WAIT_STX) (h1 : 1 ≤ n) (h2 : n ≤ 255) (hp : p.length ≤ n) :
    process_bytes h (STX_BYTE :: n :: p)
      = (List.replicate (p.length + 2) PROTOCOL_WAITING,
          { h with
            state := if p.length = n then .STATE_WAIT_CHK else .STATE_WAIT_DATA
            qtd_dados := n
            dados := fun j => if j < p.length then p.getD j 0 else h.dados j
            dados_count := p.length
            checksum_calc := p.sum % 256
            message_ready := false }) := by
  have hd := process_bytes_data p
    { h with
      state := .STATE_WAIT_DATA
      qtd_dados := n
      dados_count := 0
      checksum_calc := 0
      message_ready := false }
    rfl (by simp only; omega) (by simp only; omega) h2 (by simp)
  simp only [Nat.zero_add, Nat.zero_le, true_and, Nat.sub_zero] at hd
  have happ : STX_BYTE :: n :: p = [STX_BYTE, n] ++ p := rfl
  rw [happ, process_bytes_append, process_bytes_header h n hst (by omega), hd]
  simp [List.replicate_succ, List.replicate_succ']

/-- STX, the length, the payload `p` and a checksum byte `c`, from a handler that waits
for STX: the handler waits for ETX. -/
theorem process_bytes_to_etx (h : ProtocolHandler) (p : List Nat) (c : Nat)
    (hst : h.state = .STATE_WAIT_STX) (h1 : 1 ≤ p.length) (h2 : p.length ≤ 255) :
    process_bytes h (STX_BYTE :: p.length :: (p ++ [c]))
      = (List.replicate (p.length + 3) PROTOCOL_WAITING,
          { h with
            state := .STATE_WAIT_ETX
            qtd_dados := p.length
            dados := fun j => if j < p.length then p.getD j 0 else h.dados j
            dados_count := p.length
            checksum_recv := c
            checksum_calc := p.sum % 256
            message_ready := false }) := by
  have hp := process_bytes_payload h p.length p hst h1 h2 (Nat.le_refl _)
  simp only [if_true] at hp
  have happ : STX_BYTE :: p.length :: (p ++ [c]) = (STX_BYTE :: p.length :: p) ++ [c] := rfl
  rw [happ, process_bytes_append, hp]
  simp [process_bytes, protocol_process_byte, List.replicate_succ']

/-- A whole frame with payload `p`, checksum byte `c` and closing byte `e`, from a handler
that waits for STX. -/
theorem process_bytes_frame_from (h : ProtocolHandler) (p : List Nat) (c e : Nat)
    (hst : h.state = .STATE_WAIT_STX) (h1 : 1 ≤ p.length) (h2 : p.length ≤ 255) :
    process_bytes h (STX_BYTE :: p.length :: (p ++ [c, e]))
      = (List.replicate (p.length + 3) PROTOCOL_WAITING
            ++ [if e = ETX_BYTE ∧ p.sum % 256 = c then PROTOCOL_SUCCESS else PROTOCOL_ERROR],
          { h with
            state :=
              if e = ETX_BYTE ∧ p.sum % 256 = c then .STATE_MESSAGE_OK
              else .STATE_MESSAGE_ERROR
            qtd_dados := p.length
            dados := fun j => if j < p.length then p.getD j 0 else h.dados j
            dados_count := p.length
            checksum_recv := c
            checksum_calc := p.sum % 256
            message_ready := decide (e = ETX_BYTE ∧ p.sum % 256 = c) }) := by
  have hp := process_bytes_to_etx h p c hst h1 h2
  have happ : STX_BYTE :: p.length :: (p ++ [c, e])
      = (STX_BYTE :: p.length :: (p ++ [c])) ++ [e] := by simp
  rw [happ, process_bytes_append, hp]
  by_cases he : e = ETX_BYTE
  · by_cases hc : p.sum % 256 = c
    · simp [process_bytes, protocol_process_byte, he, hc]
    · simp [process_bytes, protocol_process_byte, he, hc]
  · simp [process_bytes, protocol_process_byte, he]

end Trabalho2

namespace Trabalho3

/-- Bytes other than STX leave a handler whose state function is `espera_stx` as it is. -/
theorem process_bytes_garbage_t3 (h : ProtocolHandler) (l : List Nat)
    (hst : h.estado_atual = some .espera_stx) (hl : ∀ b ∈ l, b ≠ STX_BYTE) :
    process_bytes h l = (List.replicate l.length PROTOCOL_WAITING, h) := by
  induction l with
  | nil => rfl
  | cons b l ih =>
    have hb : b ≠ STX_BYTE := hl b (List.mem_cons_self b l)
    have hstep : protocol_process_byte h b = (PROTOCOL_WAITING, h) := by
      simp [protocol_process_byte, hst, EstadoFuncao.call, espera_stx, hb]
    have ih2 := ih (fun x hx => hl x (List.mem_cons_of_mem b hx))
    simp [process_bytes, hstep, ih2, List.replicate_succ]

end Trabalho3

/-- C11: in Trabalho2 and in Trabalho3, for every sequence of bytes none of which is STX,
fed to a handler fresh from `protocol_init`, every call returns `PROTOCOL_WAITING` and the
handler is left exactly as `protocol_init` made it, waiting for STX; an STX byte that
follows moves it to the state that waits for the length. -/
theorem garbage_before_stx (h2 : Trabalho2.ProtocolHandler) (h3 : Trabalho3.ProtocolHandler)
    (l : List Nat) (hl : ∀ b ∈ l, b ≠ 0x02) :
    (Trabalho2.process_bytes (Trabalho2.protocol_init h2) l
        = (List.replicate l.length Trabalho2.PROTOCOL_WAITING, Trabalho2.protocol_init h2)
      ∧ (Trabalho2.process_bytes (Trabalho2.protocol_init h2) l).2.state = .STATE_WAIT_STX
      ∧ (Trabalho2.protocol_process_byte
          (Trabalho2.process_bytes (Trabalho2.protocol_init h2) l).2
          Trabalho2.STX_BYTE).2.state = .STATE_WAIT_QTD)
    ∧ (Trabalho3.process_bytes (Trabalho3.protocol_init h3) l
        = (List.replicate l.length Trabalho3.PROTOCOL_WAITING, Trabalho3.protocol_init h3)
      ∧ (Trabalho3.process_bytes (Trabalho3.protocol_init h3) l).2.estado_atual
          = some .espera_stx
      ∧ (Trabalho3.protocol_process_byte
          (Trabalho3.process_bytes (Trabalho3.protocol_init h3) l).2
          Trabalho3.STX_BYTE).2.estado_atual = some .espera_qtd) := by
  have e2 := Trabalho2.process_bytes_garbage (Trabalho2.protocol_init h2) l rfl hl
  have e3 := Trabalho3.process_bytes_garbage_t3 (Trabalho3.protocol_init h3) l rfl hl
  rw [e2, e3]
  exact ⟨⟨rfl, rfl, rfl⟩, rfl, rfl, rfl⟩

/-- Witness of C11: the garbage 0xFF, 0x00 of `test_invalid_stx` and `test_ignora_lixo`. -/
theorem garbage_before_stx_witness :
    (Trabalho2.protocol_process_byte
        (Trabalho2.process_bytes (Trabalho2.protocol_init default) [0xFF, 0x00]).2
        Trabalho2.STX_BYTE).2.state = .STATE_WAIT_QTD
    ∧ (Trabalho3.protocol_process_byte
        (Trabalho3.process_bytes (Trabalho3.protocol_init default) [0xFF, 0x00]).2
        Trabalho3.STX_BYTE).2.estado_atual = some .espera_qtd :=
  ⟨(garbage_before_stx default default [0xFF, 0x00] (by decide)).1.2.2,
    (garbage_before_stx default default [0xFF, 0x00] (by decide)).2.2.2⟩

namespace Trabalho2

/-- C19: after a complete valid frame the handler is in `STATE_MESSAGE_OK`, after a frame
whose checksum byte or closing byte is wrong in `STATE_MESSAGE_ERROR`; in either state, for
every value of the next byte, `protocol_process_byte` returns `PROTOCOL_WAITING` and leaves
the handler in `STATE_WAIT_STX` with `dados_count`, `checksum_calc` 0 and `message_ready`
false. -/
theorem reset_after_message (h0 : ProtocolHandler) (p : List Nat) (c e b : Nat)
    (h1 : 1 ≤ p.length) (h2 : p.length ≤ 255) :
    (process_bytes (protocol_init h0) (frame p)).2.state = .STATE_MESSAGE_OK
    ∧ (¬ (e = ETX_BYTE ∧ p.sum % 256 = c) →
        (process_bytes (protocol_init h0)
          (STX_BYTE :: p.length :: (p ++ [c, e]))).2.state = .STATE_MESSAGE_ERROR)
    ∧ (∀ h : ProtocolHandler,
        h.state = .STATE_MESSAGE_OK ∨ h.state = .STATE_MESSAGE_ERROR →
          (protocol_process_byte h b).1 = PROTOCOL_WAITING
          ∧ (protocol_process_byte h b).2.state = .STATE_WAIT_STX
          ∧ (protocol_process_byte h b).2.dados_count = 0
          ∧ (protocol_process_byte h b).2.checksum_calc = 0
          ∧ (protocol_process_byte h b).2.message_ready = false)
    ∧ (protocol_process_byte (process_bytes (protocol_init h0) (frame p)).2 b).1
        = PROTOCOL_WAITING
    ∧ (protocol_process_byte (process_bytes (protocol_init h0) (frame p)).2 b).2.state
        = .STATE_WAIT_STX := by
  have hreset : ∀ h : ProtocolHandler,
      h.state = .STATE_MESSAGE_OK ∨ h.state = .STATE_MESSAGE_ERROR →
        (protocol_process_byte h b).1 = PROTOCOL_WAITING
        ∧ (protocol_process_byte h b).2.state = .STATE_WAIT_STX
        ∧ (protocol_process_byte h b).2.dados_count = 0
        ∧ (protocol_process_byte h b).2.checksum_calc = 0
        ∧ (protocol_process_byte h b).2.message_ready = false := by
    intro h hst
    rcases hst with hst | hst <;> simp [protocol_process_byte, hst, protocol_reset]
  have hok : (process_bytes (protocol_init h0) (frame p)).2.state = .STATE_MESSAGE_OK := by
    rw [sum_frame_eq, process_bytes_frame_from _ p _ _ rfl h1 h2]
    simp
  refine ⟨hok, ?_, hreset, (hreset _ (Or.inl hok)).1, (hreset _ (Or.inl hok)).2.1⟩
  intro hbad
  rw [process_bytes_frame_from _ p c e rfl h1 h2]
  simp [hbad]

/-- Witness of C19: the frame of `test_reset_after_message` and the byte 0x00 after it. -/
theorem reset_after_message_witness :
    (process_bytes (protocol_init default) (frame [0x42])).2.state = .STATE_MESSAGE_OK
    ∧ (protocol_process_byte (process_bytes (protocol_init default) (frame [0x42])).2
        0x00).2.state = .STATE_WAIT_STX :=
  ⟨(reset_after_message default [0x42] 0x42 0x03 0x00 (by decide) (by decide)).1,
    (reset_after_message default [0x42] 0x42 0x03 0x00 (by decide) (by decide)).2.2.2.2⟩

/-- C20: for every length `N` in [1, 255] and every `N` data bytes `p`, a fresh handler is
in `STATE_WAIT_QTD` after STX, in `STATE_WAIT_DATA` after `N`, still in `STATE_WAIT_DATA`
after each of the first `N - 1` data bytes, in `STATE_WAIT_CHK` after the `N`-th and in
`STATE_WAIT_ETX` after one more byte `c` of any value; all these calls return
`PROTOCOL_WAITING`. -/
theorem state_transitions (h0 : ProtocolHandler) (p : List Nat) (c : Nat)
    (h1 : 1 ≤ p.length) (h2 : p.length ≤ 255) :
    (process_bytes (protocol_init h0) [STX_BYTE]).2.state = .STATE_WAIT_QTD
    ∧ (process_bytes (protocol_init h0) [STX_BYTE, p.length]).2.state = .STATE_WAIT_DATA
    ∧ (∀ k, k < p.length →
        (process_bytes (protocol_init h0) (STX_BYTE :: p.length :: p.take k)).2.state
          = .STATE_WAIT_DATA)
    ∧ (process_bytes (protocol_init h0) (STX_BYTE :: p.length :: p)).2.state
        = .STATE_WAIT_CHK
    ∧ (process_bytes (protocol_init h0) (STX_BYTE :: p.length :: (p ++ [c]))).2.state
        = .STATE_WAIT_ETX
    ∧ (process_bytes (protocol_init h0) (STX_BYTE :: p.length :: (p ++ [c]))).1
        = List.replicate (p.length + 3) PROTOCOL_WAITING := by
  refine ⟨rfl, ?_, ?_, ?_, ?_, ?_⟩
  · rw [process_bytes_header _ _ rfl (by omega)]
  · intro k hk
    have hlen : (p.take k).length = k := by simp; omega
    rw [process_bytes_payload _ p.length (p.take k) rfl h1 h2 (by omega)]
    have hne : ¬ (k = p.length) := by omega
    simp [hlen, hne]
  · rw [process_bytes_payload _ p.length p rfl h1 h2 (Nat.le_refl _)]
    simp
  · rw [process_bytes_to_etx _ p c rfl h1 h2]
  · rw [process_bytes_to_etx _ p c rfl h1 h2]

/-- Witness of C20: the bytes of `test_state_transitions`. -/
theorem state_transitions_witness :
    (process_bytes (protocol_init default) (STX_BYTE :: [0x42].length :: [0x42])).2.state
        = .STATE_WAIT_CHK
    ∧ (process_bytes (protocol_init default)
        (STX_BYTE :: [0x42].length :: ([0x42] ++ [0x42]))).2.state = .STATE_WAIT_ETX :=
  ⟨(state_transitions default [0x42] 0x42 (by decide) (by decide)).2.2.2.1,
    (state_transitions default [0x42] 0x42 (by decide) (by decide)).2.2.2.2.1⟩

end Trabalho2

/-! ## Trabalho2 and Trabalho3 step by step -/

/-- From a state that is not terminal, one call in Trabalho3 does what one call in
Trabalho2 does: same code, same fields, corresponding state. -/
theorem function_handler_step (h : Trabalho2.ProtocolHandler) (b : Nat) (hr : running h) :
    Trabalho3.protocol_process_byte (function_handler h) b
      = ((Trabalho2.protocol_process_byte h b).1,
          function_handler (Trabalho2.protocol_process_byte h b).2) := by
  obtain ⟨st, q, d, c, r, cs, m⟩ := h
  obtain ⟨hr1, hr2⟩ := hr
  simp only at hr1 hr2
  cases st
  · by_cases hb : b = 2
    · simp [Trabalho3.protocol_process_byte, Trabalho2.protocol_process_byte, function_handler,
        state_function, Trabalho3.EstadoFuncao.call, Trabalho3.espera_stx,
        Trabalho2.STX_BYTE, Trabalho3.STX_BYTE, Trabalho2.PROTOCOL_WAITING,
        Trabalho3.PROTOCOL_WAITING, hb]
    · simp [Trabalho3.protocol_process_byte, Trabalho2.protocol_process_byte, function_handler,
        state_function, Trabalho3.EstadoFuncao.call, Trabalho3.espera_stx,
        Trabalho2.STX_BYTE, Trabalho3.STX_BYTE, Trabalho2.PROTOCOL_WAITING,
        Trabalho3.PROTOCOL_WAITING, hb]
  · by_cases hb : b > 0
    · simp [Trabalho3.protocol_process_byte, Trabalho2.protocol_process_byte, function_handler,
        state_function, Trabalho3.EstadoFuncao.call, Trabalho3.espera_qtd,
        Trabalho2.PROTOCOL_WAITING, Trabalho3.PROTOCOL_WAITING, hb]
    · simp [Trabalho3.protocol_process_byte, Trabalho2.protocol_process_byte, function_handler,
        state_function, Trabalho3.EstadoFuncao.call, Trabalho3.espera_qtd,
        Trabalho2.PROTOCOL_WAITING, Trabalho3.PROTOCOL_WAITING, hb]
  · by_cases hq : q ≤ (c + 1) % 256
    · simp [Trabalho3.protocol_process_byte, Trabalho2.protocol_process_byte, function_handler,
        state_function, Trabalho3.EstadoFuncao.call, Trabalho3.espera_dados,
        Trabalho2.PROTOCOL_WAITING, Trabalho3.PROTOCOL_WAITING, hq]
    · simp [Trabalho3.protocol_process_byte, Trabalho2.protocol_process_byte, function_handler,
        state_function, Trabalho3.EstadoFuncao.call, Trabalho3.espera_dados,
        Trabalho2.PROTOCOL_WAITING, Trabalho3.PROTOCOL_WAITING, hq]
  · simp [Trabalho3.protocol_process_byte, Trabalho2.protocol_process_byte, function_handler,
      state_function, Trabalho3.EstadoFuncao.call, Trabalho3.espera_checksum,
      Trabalho2.PROTOCOL_WAITING, Trabalho3.PROTOCOL_WAITING]
  · by_cases hb : b = 3
    · by_cases hc : cs = r
      · simp [Trabalho3.protocol_process_byte, Trabalho2.protocol_process_byte,
          function_handler, state_function, Trabalho3.EstadoFuncao.call, Trabalho3.espera_etx,
          Trabalho2.ETX_BYTE, Trabalho3.ETX_BYTE, Trabalho2.PROTOCOL_SUCCESS,
          Trabalho3.PROTOCOL_SUCCESS, hb, hc]
      · simp [Trabalho3.protocol_process_byte, Trabalho2.protocol_process_byte,
          function_handler, state_function, Trabalho3.EstadoFuncao.call, Trabalho3.espera_etx,
          Trabalho2.ETX_BYTE, Trabalho3.ETX_BYTE, Trabalho2.PROTOCOL_ERROR,
          Trabalho3.PROTOCOL_ERROR, hb, hc]
    · simp [Trabalho3.protocol_process_byte, Trabalho2.protocol_process_byte,
        function_handler, state_function, Trabalho3.EstadoFuncao.call, Trabalho3.espera_etx,
        Trabalho2.ETX_BYTE, Trabalho3.ETX_BYTE, Trabalho2.PROTOCOL_ERROR,
        Trabalho3.PROTOCOL_ERROR, hb]
  · exact absurd rfl hr1
  · exact absurd rfl hr2

/-- A call of Trabalho2 that returns `PROTOCOL_WAITING` from a state that is not terminal
ends in a state that is not terminal. -/
theorem running_step (h : Trabalho2.ProtocolHandler) (b : Nat) (hr : running h)
    (hw : (Trabalho2.protocol_process_byte h b).1 = Trabalho2.PROTOCOL_WAITING) :
    running (Trabalho2.protocol_process_byte h b).2 := by
  obtain ⟨st, q, d, c, r, cs, m⟩ := h
  obtain ⟨hr1, hr2⟩ := hr
  simp only at hr1 hr2
  unfold running
  cases st
  · by_cases hb : b = Trabalho2.STX_BYTE <;> simp [Trabalho2.protocol_process_byte, hb]
  · by_cases hb : b > 0 <;> simp [Trabalho2.protocol_process_byte, hb]
  · by_cases hq : q ≤ (c + 1) % 256 <;> simp [Trabalho2.protocol_process_byte, hq]
  · simp [Trabalho2.protocol_process_byte]
  · revert hw
    by_cases hb : b = Trabalho2.ETX_BYTE
    · by_cases hc : cs = r <;>
        simp [Trabalho2.protocol_process_byte, hb, hc, Trabalho2.PROTOCOL_WAITING,
          Trabalho2.PROTOCOL_SUCCESS, Trabalho2.PROTOCOL_ERROR]
    · simp [Trabalho2.protocol_process_byte, hb, Trabalho2.PROTOCOL_WAITING,
        Trabalho2.PROTOCOL_ERROR]
  · exact absurd rfl hr1
  · exact absurd rfl hr2

/-- While Trabalho2 has returned nothing but `PROTOCOL_WAITING`, Trabalho3 has returned the
same codes and its handler corresponds to the one of Trabalho2. -/
theorem function_handler_run (l : List Nat) (h : Trabalho2.ProtocolHandler) (hr : running h)
    (hw : ∀ c ∈ (Trabalho2.process_bytes h l).1, c = Trabalho2.PROTOCOL_WAITING) :
    Trabalho3.process_bytes (function_handler h) l
        = ((Trabalho2.process_bytes h l).1, function_handler (Trabalho2.process_bytes h l).2)
      ∧ running (Trabalho2.process_bytes h l).2 := by
  induction l generalizing h with
  | nil => exact ⟨rfl, hr⟩
  | cons b l ih =>
    simp only [Trabalho2.process_bytes, List.mem_cons, forall_eq_or_imp] at hw
    obtain ⟨hw1, hw2⟩ := hw
    have hr1 := running_step h b hr hw1
    obtain ⟨e, hr2⟩ := ih (Trabalho2.protocol_process_byte h b).2 hr1 hw2
    refine ⟨?_, hr2⟩
    simp only [Trabalho3.process_bytes, Trabalho2.process_bytes, function_handler_step h b hr, e]

theorem Trabalho3.process_bytes_append_t3 (h : Trabalho3.ProtocolHandler) (a b : List Nat) :
    Trabalho3.process_bytes h (a ++ b)
      = ((Trabalho3.process_bytes h a).1
            ++ (Trabalho3.process_bytes (Trabalho3.process_bytes h a).2 b).1,
          (Trabalho3.process_bytes (Trabalho3.process_bytes h a).2 b).2) := by
  induction a generalizing h with
  | nil => simp [Trabalho3.process_bytes]
  | cons x xs ih => simp [Trabalho3.process_bytes, ih]

/-- One byte further: up to and including the first call at which Trabalho2 returns
something else than `PROTOCOL_WAITING`, the two variants go together. -/
theorem function_handler_run_next (l : List Nat) (b : Nat) (h : Trabalho2.ProtocolHandler)
    (hr : running h)
    (hw : ∀ c ∈ (Trabalho2.process_bytes h l).1, c = Trabalho2.PROTOCOL_WAITING) :
    Trabalho3.process_bytes (function_handler h) (l ++ [b])
      = ((Trabalho2.process_bytes h (l ++ [b])).1,
          function_handler (Trabalho2.process_bytes h (l ++ [b])).2) := by
  obtain ⟨e, hr2⟩ := function_handler_run l h hr hw
  rw [Trabalho3.process_bytes_append_t3, Trabalho2.process_bytes_append, e]
  simp only [Trabalho3.process_bytes, Trabalho2.process_bytes,
    function_handler_step _ b hr2]

/-- C13 as stated fails: on the two frames of `test_duas_mensagens` fed back to back,
Trabalho3 returns `PROTOCOL_SUCCESS` on the tenth byte and Trabalho2, which spends the
second STX on its reset, returns `PROTOCOL_WAITING`. -/
theorem variants_differ_after_message :
    (Trabalho2.process_bytes (Trabalho2.protocol_init default)
        [0x02, 1, 0x10, 0x10, 0x03, 0x02, 1, 0x20, 0x20, 0x03]).1
      = [-2, -2, -2, -2, 0, -2, -2, -2, -2, -2]
    ∧ (Trabalho3.process_bytes (Trabalho3.protocol_init default)
        [0x02, 1, 0x10, 0x10, 0x03, 0x02, 1, 0x20, 0x20, 0x03]).1
      = [-2, -2, -2, -2, 0, -2, -2, -2, -2, 0]
    ∧ ¬ ((Trabalho2.process_bytes (Trabalho2.protocol_init default)
          [0x02, 1, 0x10, 0x10, 0x03, 0x02, 1, 0x20, 0x20, 0x03]).1
        = (Trabalho3.process_bytes (Trabalho3.protocol_init default)
          [0x02, 1, 0x10, 0x10, 0x03, 0x02, 1, 0x20, 0x20, 0x03]).1) := by
  decide

/-- C13 amended: for every byte sequence fed to handlers fresh from `protocol_init`, the
two variants return the same code and agree on `protocol_message_ready` at every step up to
and including the first step at which Trabalho2 returns something else than
`PROTOCOL_WAITING`. -/
theorem variants_agree_until_outcome (h2 : Trabalho2.ProtocolHandler)
    (h3 : Trabalho3.ProtocolHandler) (l : List Nat) (b : Nat)
    (hw : ∀ c ∈ (Trabalho2.process_bytes (Trabalho2.protocol_init h2) l).1,
      c = Trabalho2.PROTOCOL_WAITING) :
    (Trabalho2.process_bytes (Trabalho2.protocol_init h2) (l ++ [b])).1
        = (Trabalho3.process_bytes (Trabalho3.protocol_init h3) (l ++ [b])).1
      ∧ Trabalho2.protocol_message_ready
          (Trabalho2.process_bytes (Trabalho2.protocol_init h2) (l ++ [b])).2
        = Trabalho3.protocol_message_ready
          (Trabalho3.process_bytes (Trabalho3.protocol_init h3) (l ++ [b])).2 := by
  have hinit : Trabalho3.protocol_init h3 = function_handler (Trabalho2.protocol_init h2) := rfl
  have hr : running (Trabalho2.protocol_init h2) := by
    constructor <;> simp [Trabalho2.protocol_init]
  rw [hinit, function_handler_run_next l b _ hr hw]
  exact ⟨rfl, rfl⟩

/-- Witness of C13 amended: the first frame of `test_duas_mensagens`, up to its ETX. -/
theorem variants_agree_until_outcome_witness :
    (Trabalho2.process_bytes (Trabalho2.protocol_init default)
        ([0x02, 1, 0x10, 0x10] ++ [0x03])).1
      = (Trabalho3.process_bytes (Trabalho3.protocol_init default)
        ([0x02, 1, 0x10, 0x10] ++ [0x03])).1 :=
  (variants_agree_until_outcome default default [0x02, 1, 0x10, 0x10] 0x03 (by decide)).1

/-! ## Trabalho3: recovery after a message -/

namespace Trabalho3

/-- A whole frame with payload `p`, checksum byte `c` and closing byte `e`, from a handler
whose state function is `espera_stx`: the codes returned and the handler at the end. -/
theorem process_bytes_frame_t3 (h : ProtocolHandler) (p : List Nat) (c e : Nat)
    (hst : h.estado_atual = some .espera_stx) (h1 : 1 ≤ p.length) (h2 : p.length ≤ 255) :
    process_bytes h (STX_BYTE :: p.length :: (p ++ [c, e]))
      = (List.replicate (p.length + 3) PROTOCOL_WAITING
            ++ [if e = ETX_BYTE ∧ p.sum % 256 = c then PROTOCOL_SUCCESS else PROTOCOL_ERROR],
          { h with
            estado_atual := some .espera_stx
            qtd_dados := p.length
            dados := fun j => if j < p.length then p.getD j 0 else h.dados j
            dados_count := p.length
            checksum_recv := c
            checksum_calc := p.sum % 256
            message_ready := decide (e = ETX_BYTE ∧ p.sum % 256 = c) }) := by
  obtain ⟨st, q, d, k, r, cs, m⟩ := h
  simp only at hst
  subst hst
  have hh :
      (⟨some .espera_stx, q, d, k, r, cs, m⟩ : ProtocolHandler)
        = function_handler ⟨.STATE_WAIT_STX, q, d, k, r, cs, m⟩ := rfl
  have hrun : running ⟨.STATE_WAIT_STX, q, d, k, r, cs, m⟩ := by
    constructor <;> simp
  have hw : ∀ x ∈ (Trabalho2.process_bytes ⟨.STATE_WAIT_STX, q, d, k, r, cs, m⟩
      (Trabalho2.STX_BYTE :: p.length :: (p ++ [c]))).1,
      x = Trabalho2.PROTOCOL_WAITING := by
    rw [Trabalho2.process_bytes_to_etx _ p c rfl h1 h2]
    intro x hx
    exact (List.mem_replicate.mp hx).2
  have happ : STX_BYTE :: p.length :: (p ++ [c, e])
      = (Trabalho2.STX_BYTE :: p.length :: (p ++ [c])) ++ [e] := by
    simp [STX_BYTE, Trabalho2.STX_BYTE]
  have happ2 : (Trabalho2.STX_BYTE :: p.length :: (p ++ [c])) ++ [e]
      = Trabalho2.STX_BYTE :: p.length :: (p ++ [c, e]) := by simp
  rw [hh, happ, function_handler_run_next _ e _ hrun hw, happ2,
    Trabalho2.process_bytes_frame_from _ p c e rfl h1 h2]
  by_cases he : e = 3
  · by_cases hc : p.sum % 256 = c
    · simp [function_handler, state_function, ETX_BYTE, Trabalho2.ETX_BYTE, he, hc,
        PROTOCOL_WAITING, Trabalho2.PROTOCOL_WAITING, PROTOCOL_SUCCESS,
        Trabalho2.PROTOCOL_SUCCESS]
    · simp [function_handler, state_function, ETX_BYTE, Trabalho2.ETX_BYTE, he, hc,
        PROTOCOL_WAITING, Trabalho2.PROTOCOL_WAITING, PROTOCOL_ERROR,
        Trabalho2.PROTOCOL_ERROR]
  · simp [function_handler, state_function, ETX_BYTE, Trabalho2.ETX_BYTE, he,
      PROTOCOL_WAITING, Trabalho2.PROTOCOL_WAITING, PROTOCOL_ERROR,
      Trabalho2.PROTOCOL_ERROR]

theorem sum_frame_eq_t3 (p : List Nat) :
    frame p = STX_BYTE :: p.length :: (p ++ [p.sum % 256, ETX_BYTE]) := by
  simp [frame]

/-- A call that returns `PROTOCOL_SUCCESS` or `PROTOCOL_ERROR` leaves `espera_stx` as the
state function. -/
theorem outcome_returns_to_espera_stx (h : ProtocolHandler) (b : Nat)
    (ho : (protocol_process_byte h b).1 = PROTOCOL_SUCCESS
      ∨ (protocol_process_byte h b).1 = PROTOCOL_ERROR) :
    (protocol_process_byte h b).2.estado_atual = some .espera_stx := by
  obtain ⟨st, q, d, k, r, cs, m⟩ := h
  revert ho
  cases st with
  | none =>
    simp [protocol_process_byte, PROTOCOL_INVALID_PARAM, PROTOCOL_SUCCESS, PROTOCOL_ERROR]
  | some f =>
    cases f
    · by_cases hb : b = STX_BYTE <;>
        simp [protocol_process_byte, EstadoFuncao.call, espera_stx, hb, PROTOCOL_WAITING,
          PROTOCOL_SUCCESS, PROTOCOL_ERROR]
    · by_cases hb : b > 0 <;>
        simp [protocol_process_byte, EstadoFuncao.call, espera_qtd, hb, PROTOCOL_WAITING,
          PROTOCOL_SUCCESS, PROTOCOL_ERROR]
    · by_cases hq : q ≤ (k + 1) % 256 <;>
        simp [protocol_process_byte, EstadoFuncao.call, espera_dados, hq, PROTOCOL_WAITING,
          PROTOCOL_SUCCESS, PROTOCOL_ERROR]
    · simp [protocol_process_byte, EstadoFuncao.call, espera_checksum, PROTOCOL_WAITING,
        PROTOCOL_SUCCESS, PROTOCOL_ERROR]
    · by_cases hb : b = ETX_BYTE
      · by_cases hc : cs = r <;>
          simp [protocol_process_byte, EstadoFuncao.call, espera_etx, hb, hc]
      · simp [protocol_process_byte, EstadoFuncao.call, espera_etx, hb]

/-- C12: in Trabalho3, after any call of `protocol_process_byte` that returns
`PROTOCOL_SUCCESS` or `PROTOCOL_ERROR` the state function is `espera_stx`, and a well-formed
frame with payload `p` of 1 to 255 bytes fed right afterwards returns `PROTOCOL_WAITING`
on every byte but the last and `PROTOCOL_SUCCESS` on the last, with `dados[0 .. n)` equal
to `p`; in particular, two valid frames fed back to back to a fresh handler both succeed. -/
theorem recovery_after_outcome (h : ProtocolHandler) (b : Nat) (p : List Nat)
    (ho : (protocol_process_byte h b).1 = PROTOCOL_SUCCESS
      ∨ (protocol_process_byte h b).1 = PROTOCOL_ERROR)
    (h1 : 1 ≤ p.length) (h2 : p.length ≤ 255) :
    (protocol_process_byte h b).2.estado_atual = some .espera_stx
    ∧ (process_bytes (protocol_process_byte h b).2 (frame p)).1
        = List.replicate (p.length + 3) PROTOCOL_WAITING ++ [PROTOCOL_SUCCESS]
    ∧ protocol_message_ready (process_bytes (protocol_process_byte h b).2 (frame p)).2 = true
    ∧ (∀ i, i < p.length →
        (process_bytes (protocol_process_byte h b).2 (frame p)).2.dados i = p.getD i 0)
    ∧ (∀ (h0 : ProtocolHandler) (q : List Nat), 1 ≤ q.length → q.length ≤ 255 →
        (process_bytes (protocol_init h0) (frame q ++ frame p)).1
          = (List.replicate (q.length + 3) PROTOCOL_WAITING ++ [PROTOCOL_SUCCESS])
            ++ (List.replicate (p.length + 3) PROTOCOL_WAITING ++ [PROTOCOL_SUCCESS])) := by
  have hst := outcome_returns_to_espera_stx h b ho
  have hf := process_bytes_frame_t3 (protocol_process_byte h b).2 p (p.sum % 256) ETX_BYTE
    hst h1 h2
  refine ⟨hst, ?_, ?_, ?_, ?_⟩
  · rw [sum_frame_eq_t3, hf]
    simp
  · rw [sum_frame_eq_t3, hf]
    simp [protocol_message_ready]
  · intro i hi
    rw [sum_frame_eq_t3, hf]
    simp [hi]
  · intro h0 q hq1 hq2
    have hq := process_bytes_frame_t3 (protocol_init h0) q (q.sum % 256) ETX_BYTE rfl hq1 hq2
    simp only [and_self, if_true, decide_True] at hq
    rw [process_bytes_append_t3, sum_frame_eq_t3 q, hq, sum_frame_eq_t3 p,
      process_bytes_frame_t3 _ p (p.sum % 256) ETX_BYTE rfl h1 h2]
    simp

/-- Witness of C12: the ETX of the first frame of `test_duas_mensagens`, then the second
frame. -/
theorem recovery_after_outcome_witness :
    (process_bytes
        (protocol_process_byte (process_bytes (protocol_init default) [0x02, 1, 0x10, 0x10]).2
          0x03).2 (frame [0x20])).1
      = List.replicate ([0x20].length + 3) PROTOCOL_WAITING ++ [PROTOCOL_SUCCESS] :=
  (recovery_after_outcome (process_bytes (protocol_init default) [0x02, 1, 0x10, 0x10]).2 0x03
    [0x20] (Or.inl (by decide)) (by decide) (by decide)).2.1

end Trabalho3

/-! ## T4: the transmitter after its first step -/

namespace Protothread

/-- C14: a transmitter suspended at the `PT_WAIT_UNTIL` and stepped with `ack_received` true
returns 0, clears `packet_sent` and `ack_received`, resets its continuation to 0, and
leaves every other field and the channel as they were. -/
theorem transmitter_completes_on_ack (t : transmitter_t) (ch : communication_channel_t)
    (hlc : t.pt.lc = LINE_TX_WAIT) (hack : t.ack_received = true) :
    transmitter_thread t ch
      = (0, { t with packet_sent := false, ack_received := false, pt := { lc := 0 } }, ch) := by
  simp [transmitter_thread, transmitter_wait, hlc, hack, LINE_TX_WAIT]

/-- Witness of C14: the second step of `test_transmitter_with_ack`. -/
theorem transmitter_completes_on_ack_witness :
    (transmitter_thread
        { (transmitter_thread { init_transmitter tx with data := ofList [0x55], data_size := 1 }
            (init_channel channel)).2.1 with ack_received := true }
        (transmitter_thread { init_transmitter tx with data := ofList [0x55], data_size := 1 }
            (init_channel channel)).2.2).1 = 0 :=
  congrArg Prod.fst
    (transmitter_completes_on_ack
      { (transmitter_thread { init_transmitter tx with data := ofList [0x55], data_size := 1 }
          (init_channel channel)).2.1 with ack_received := true }
      (transmitter_thread { init_transmitter tx with data := ofList [0x55], data_size := 1 }
          (init_channel channel)).2.2 (by decide) rfl)

/-- A step from the `PT_WAIT_UNTIL` with `timeout` true and no acknowledgement: the thread
restarts, that is, it returns 1 with its continuation at 0, and touches nothing else. -/
theorem transmitter_thread_restart (t : transmitter_t) (ch : communication_channel_t)
    (hlc : t.pt.lc = LINE_TX_WAIT) (hack : t.ack_received = false) (hto : t.timeout = true) :
    transmitter_thread t ch = (1, { t with pt := { lc := 0 } }, ch) := by
  simp [transmitter_thread, transmitter_wait, hlc, hack, hto, LINE_TX_WAIT]

/-- A step from the `PT_WAIT_UNTIL` with neither flag set: nothing changes. -/
theorem transmitter_thread_idle (t : transmitter_t) (ch : communication_channel_t)
    (hlc : t.pt.lc = LINE_TX_WAIT) (hack : t.ack_received = false) (hto : t.timeout = false) :
    transmitter_thread t ch = (1, t, ch) := by
  simp [transmitter_thread, transmitter_wait, hlc, hack, hto, LINE_TX_WAIT]

theorem bytes_take (a : Nat → Nat) (k m : Nat) (h : m ≤ k) :
    (bytes a k).take m = bytes a m := by
  simp [bytes, ← List.map_take, List.take_range, Nat.min_eq_left h]

/-- What a step that starts from the beginning of the thread leaves in the tx slot. -/
theorem transmitter_thread_publishes (t : transmitter_t) (ch : communication_channel_t)
    (hlc : t.pt.lc = 0) :
    (transmitter_thread t ch).2.2.tx_ready = true
    ∧ (transmitter_thread t ch).2.2.tx_size = (4 + t.data_size) % 256
    ∧ bytes (transmitter_thread t ch).2.2.tx_buffer (transmitter_thread t ch).2.2.tx_size
        = published_frame t.data t.data_size := by
  have hm : (4 + t.data_size) % 256 ≤ t.data_size + 4 := by
    have := Nat.mod_le (4 + t.data_size) 256
    omega
  have hch : (transmitter_thread t ch).2.2
      = { ch with
          tx_buffer :=
            memcpy ch.tx_buffer 0
              (store (store (memcpy (store (store t.packet 0 STX) 1 t.data_size) 2 t.data
                t.data_size) (2 + t.data_size) (calculate_checksum t.data t.data_size))
                (3 + t.data_size) ETX)
              ((4 + t.data_size) % 256)
          tx_size := (4 + t.data_size) % 256
          tx_ready := true } := by
    simp only [transmitter_thread, hlc, if_true, transmitter_wait]
    split_ifs <;> rfl
  rw [hch]
  refine ⟨rfl, rfl, ?_⟩
  simp only [bytes_memcpy_zero, published_frame]
  rw [← bytes_framed t.packet t.data STX t.data_size (calculate_checksum t.data t.data_size) ETX,
    bytes_take _ _ _ hm]

/-- C15 as stated fails: in `test_transmitter_with_timeout`, with the tx slot released by
the receiver in between, the step that sees the timeout returns 1 but leaves `tx_ready`
false and the continuation at 0: it restarts the thread, it neither re-publishes the frame
nor suspends at the `PT_WAIT_UNTIL`. -/
theorem timeout_step_does_not_publish :
    (transmitter_thread
        { (transmitter_thread { init_transmitter tx with data := ofList [0x99], data_size := 1 }
            (init_channel channel)).2.1 with timeout := true }
        { (transmitter_thread { init_transmitter tx with data := ofList [0x99], data_size := 1 }
            (init_channel channel)).2.2 with tx_ready := false }).1 = 1
    ∧ (transmitter_thread
        { (transmitter_thread { init_transmitter tx with data := ofList [0x99], data_size := 1 }
            (init_channel channel)).2.1 with timeout := true }
        { (transmitter_thread { init_transmitter tx with data := ofList [0x99], data_size := 1 }
            (init_channel channel)).2.2 with tx_ready := false }).2.2.tx_ready = false
    ∧ (transmitter_thread
        { (transmitter_thread { init_transmitter tx with data := ofList [0x99], data_size := 1 }
            (init_channel channel)).2.1 with timeout := true }
        { (transmitter_thread { init_transmitter tx with data := ofList [0x99], data_size := 1 }
            (init_channel channel)).2.2 with tx_ready := false }).2.1.pt.lc = 0
    ∧ ¬ ((transmitter_thread
        { (transmitter_thread { init_transmitter tx with data := ofList [0x99], data_size := 1 }
            (init_channel channel)).2.1 with timeout := true }
        { (transmitter_thread { init_transmitter tx with data := ofList [0x99], data_size := 1 }
            (init_channel channel)).2.2 with tx_ready := false }).2.2.tx_ready = true) := by
  decide

/-- C15 amended: a transmitter suspended at the `PT_WAIT_UNTIL` and stepped with `timeout`
true and `ack_received` false returns 1 and restarts: its continuation goes back to 0 and
nothing else changes, the channel included.  The step after that, whatever the channel and
the flags are by then, publishes the frame again: `tx_ready` true, the same `tx_size` and
bytes as a first step with this payload publishes; and if `ack_received` is true at that
step, it returns 0. -/
theorem timeout_restarts_then_republishes (t : transmitter_t) (ch : communication_channel_t)
    (hlc : t.pt.lc = LINE_TX_WAIT) (hack : t.ack_received = false) (hto : t.timeout = true) :
    transmitter_thread t ch = (1, { t with pt := { lc := 0 } }, ch)
    ∧ (∀ (ch2 : communication_channel_t) (ack timeout : Bool),
        (transmitter_thread
            { (transmitter_thread t ch).2.1 with ack_received := ack, timeout := timeout }
            ch2).2.2.tx_ready = true
        ∧ (transmitter_thread
            { (transmitter_thread t ch).2.1 with ack_received := ack, timeout := timeout }
            ch2).2.2.tx_size = (4 + t.data_size) % 256
        ∧ bytes
            (transmitter_thread
              { (transmitter_thread t ch).2.1 with ack_received := ack, timeout := timeout }
              ch2).2.2.tx_buffer
            (transmitter_thread
              { (transmitter_thread t ch).2.1 with ack_received := ack, timeout := timeout }
              ch2).2.2.tx_size
          = published_frame t.data t.data_size
        ∧ (ack = true →
            (transmitter_thread
              { (transmitter_thread t ch).2.1 with ack_received := ack, timeout := timeout }
              ch2).1 = 0))
    ∧ (∀ (t0 : transmitter_t) (ch0 : communication_channel_t),
        t0.pt.lc = 0 → t0.data = t.data → t0.data_size = t.data_size →
          (transmitter_thread t0 ch0).2.2.tx_size = (4 + t.data_size) % 256
          ∧ bytes (transmitter_thread t0 ch0).2.2.tx_buffer
              (transmitter_thread t0 ch0).2.2.tx_size
            = published_frame t.data t.data_size) := by
  have h1 := transmitter_thread_restart t ch hlc hack hto
  refine ⟨h1, ?_, ?_⟩
  · intro ch2 ack timeout
    rw [h1]
    have hp := transmitter_thread_publishes
      { t with pt := { lc := 0 }, ack_received := ack, timeout := timeout } ch2 rfl
    refine ⟨hp.1, hp.2.1, hp.2.2, ?_⟩
    intro ha
    subst ha
    simp [transmitter_thread, transmitter_wait]
  · intro t0 ch0 h0 hd hs
    have hp := transmitter_thread_publishes t0 ch0 h0
    rw [hd, hs] at hp
    exact ⟨hp.2.1, hp.2.2⟩

/-- Witness of C15 amended: the second step of `test_transmitter_with_timeout`. -/
theorem timeout_restarts_then_republishes_witness :
    (transmitter_thread
        { (transmitter_thread { init_transmitter tx with data := ofList [0x99], data_size := 1 }
            (init_channel channel)).2.1 with timeout := true }
        (init_channel channel)).1 = 1 :=
  congrArg Prod.fst
    (timeout_restarts_then_republishes
      { (transmitter_thread { init_transmitter tx with data := ofList [0x99], data_size := 1 }
          (init_channel channel)).2.1 with timeout := true }
      (init_channel channel) (by decide) (by decide) rfl).1

/-- Without an acknowledgement a step returns 1, keeps the payload and `ack_received`, and
leaves the continuation at 0 or at the `PT_WAIT_UNTIL`. -/
theorem transmitter_thread_without_ack (t : transmitter_t) (ch : communication_channel_t)
    (hlc : t.pt.lc = 0 ∨ t.pt.lc = LINE_TX_WAIT) (hack : t.ack_received = false) :
    (transmitter_thread t ch).1 = 1
    ∧ (transmitter_thread t ch).2.1.data = t.data
    ∧ (transmitter_thread t ch).2.1.data_size = t.data_size
    ∧ (transmitter_thread t ch).2.1.ack_received = false
    ∧ ((transmitter_thread t ch).2.1.pt.lc = 0
        ∨ (transmitter_thread t ch).2.1.pt.lc = LINE_TX_WAIT) := by
  rcases hlc with h0 | h1
  · cases hto : t.timeout
    · rw [transmitter_thread_first t ch h0 hack hto]
      exact ⟨rfl, rfl, rfl, hack, Or.inr rfl⟩
    · simp [transmitter_thread, transmitter_wait, h0, hack, hto]
  · cases hto : t.timeout
    · rw [transmitter_thread_idle t ch h1 hack hto]
      exact ⟨rfl, rfl, rfl, hack, Or.inr h1⟩
    · rw [transmitter_thread_restart t ch h1 hack hto]
      exact ⟨rfl, rfl, rfl, hack, Or.inl rfl⟩

/-- C16: for every number of steps of a transmitter that never sees an acknowledgement,
whatever the timer and the receiver side do in between and with the payload unchanged,
every step returns 1, and every step that publishes, that is, every step that starts from
the beginning of the thread, leaves the same frame in the tx slot: `tx_ready` true and the
size and bytes that the first step published. -/
theorem never_completes_without_ack (t : transmitter_t)
    (envs : List (Bool × communication_channel_t))
    (hlc : t.pt.lc = 0 ∨ t.pt.lc = LINE_TX_WAIT) (hack : t.ack_received = false) :
    ∀ e ∈ run_without_ack t envs,
      e.2.1 = 1
      ∧ (e.1 = 0 →
          e.2.2.tx_ready = true
          ∧ e.2.2.tx_size = (4 + t.data_size) % 256
          ∧ bytes e.2.2.tx_buffer e.2.2.tx_size = published_frame t.data t.data_size) := by
  induction envs generalizing t with
  | nil =>
    intro e he
    simp [run_without_ack] at he
  | cons env rest ih =>
    obtain ⟨timeout, ch⟩ := env
    have hs := transmitter_thread_without_ack { t with timeout := timeout } ch hlc hack
    intro e he
    simp only [run_without_ack, List.mem_cons] at he
    rcases he with he | he
    · subst he
      refine ⟨hs.1, ?_⟩
      intro h0
      exact transmitter_thread_publishes { t with timeout := timeout } ch h0
    · have := ih (transmitter_thread { t with timeout := timeout } ch).2.1 hs.2.2.2.2
        hs.2.2.2.1 e he
      rw [hs.2.1, hs.2.2.1] at this
      exact this

/-- Witness of C16: three steps of the transmitter of `test_transmitter_with_timeout`, the
timer firing before the second; the entry of the second step. -/
theorem never_completes_without_ack_witness :
    (transmitter_thread
        { (transmitter_thread
            { init_transmitter tx with data := ofList [0x99], data_size := 1, timeout := false }
            (init_channel channel)).2.1 with timeout := true }
        (init_channel channel)).1 = 1 :=
  (never_completes_without_ack
    { init_transmitter tx with data := ofList [0x99], data_size := 1 }
    [(false, init_channel channel), (true, init_channel channel), (true, init_channel channel)]
    (Or.inl rfl) rfl _ (List.Mem.tail _ (List.Mem.head _))).1

end Protothread

/-! ## T4: acknowledgements -/

namespace Protothread

theorem receiver_byte_pt (rx : receiver_t) (b : Nat) (x : pt_t) :
    receiver_byte { rx with pt := x } b = { receiver_byte rx b with pt := x } := by
  obtain ⟨pt, st, buf, n, r, cs, pr, er, sa⟩ := rx
  cases st <;> simp only [receiver_byte] <;> split_ifs <;> rfl

theorem receive_bytes_pt (l : List Nat) (rx : receiver_t) (x : pt_t) :
    receive_bytes { rx with pt := x } l = { receive_bytes rx l with pt := x } := by
  induction l generalizing rx with
  | nil => rfl
  | cons b l ih => rw [receive_bytes_cons, receive_bytes_cons, receiver_byte_pt, ih]

/-- The `switch` sets `send_ack` and `packet_ready` together and clears neither. -/
theorem receiver_byte_ack (rx : receiver_t) (b : Nat) (h : rx.send_ack = rx.packet_ready) :
    (receiver_byte rx b).send_ack = (receiver_byte rx b).packet_ready := by
  obtain ⟨pt, st, buf, n, r, cs, pr, er, sa⟩ := rx
  simp only at h
  subst h
  cases st <;> simp only [receiver_byte] <;> split_ifs <;> rfl

theorem receive_bytes_ack (l : List Nat) (rx : receiver_t)
    (h : rx.send_ack = rx.packet_ready) :
    (receive_bytes rx l).send_ack = (receive_bytes rx l).packet_ready := by
  induction l generalizing rx with
  | nil => exact h
  | cons b l ih =>
    rw [receive_bytes_cons]
    exact ih _ (receiver_byte_ack rx b h)

/-- C17: for a fresh receiver and channel and any content of the tx slot marked ready, one
step of `receiver_thread` returns 1, puts all `tx_size` bytes through the `switch` in
order, clears `channel.tx_ready` and `rx.send_ack`, and publishes an acknowledgement,
`rx_ready` true with `rx_size` 1 and `rx_buffer[0]` ACK, if and only if `rx.packet_ready`
has become true. -/
theorem acknowledgement_iff_packet_ready (rx0 : receiver_t) (ch0 : communication_channel_t)
    (a : Nat → Nat) (n : Nat) :
    (receiver_thread (init_receiver rx0) (publish (init_channel ch0) a n)).1 = 1
    ∧ (receiver_thread (init_receiver rx0) (publish (init_channel ch0) a n)).2.1
        = { receive_bytes (init_receiver rx0) (bytes a n) with
            send_ack := false, pt := { lc := LINE_RX_YIELD } }
    ∧ (receiver_thread (init_receiver rx0) (publish (init_channel ch0) a n)).2.2.tx_ready
        = false
    ∧ (receiver_thread (init_receiver rx0) (publish (init_channel ch0) a n)).2.1.send_ack
        = false
    ∧ (((receiver_thread (init_receiver rx0) (publish (init_channel ch0) a n)).2.2.rx_ready
          = true
        ∧ (receiver_thread (init_receiver rx0) (publish (init_channel ch0) a n)).2.2.rx_size
          = 1
        ∧ (receiver_thread (init_receiver rx0) (publish (init_channel ch0) a n)).2.2.rx_buffer 0
          = ACK)
      ↔ (receiver_thread (init_receiver rx0)
          (publish (init_channel ch0) a n)).2.1.packet_ready = true) := by
  have hb : bytes (publish (init_channel ch0) a n).tx_buffer (publish (init_channel ch0) a n).tx_size
      = bytes a n := bytes_memcpy_zero _ _ _
  have hack := receive_bytes_ack (bytes a n) (init_receiver rx0) rfl
  rw [receiver_thread_ready _ _ (Or.inl rfl) rfl, hb, receive_bytes_pt]
  generalize receive_bytes (init_receiver rx0) (bytes a n) = R at hack ⊢
  obtain ⟨pt, st, buf, m, r, cs, pr, er, sa⟩ := R
  simp only at hack
  subst hack
  cases sa
  · simp [publish, init_channel]
  · simp [publish, init_channel, store]

end Protothread

/-! ## T4: what the receiver accepts -/

namespace Protothread

theorem contains_frame_append (a b : List Nat) (h : contains_frame (a ++ b) = false) :
    contains_frame b = false := by
  induction a with
  | nil => simpa using h
  | cons x a ih =>
    simp only [List.cons_append, contains_frame, Bool.or_eq_false_iff] at h
    exact ih h.2

theorem frame_at_complete (d rest : List Nat) (c e : Nat) (hd : 1 ≤ d.length) :
    frame_at (STX :: d.length :: (d ++ c :: e :: rest))
      = (decide (c = xor_fold d) && decide (e = ETX)) := by
  have h1 : (d ++ c :: e :: rest).getD d.length 0 = c := by
    rw [List.getD_append_right _ _ _ _ (Nat.le_refl _)]
    simp
  have h2 : (d ++ c :: e :: rest).getD (d.length + 1) 0 = e := by
    rw [List.getD_append_right _ _ _ _ (by omega)]
    simp
  have h3 : (d ++ c :: e :: rest).take d.length = d := List.take_left' rfl
  have h4 : d.length + 2 ≤ (d ++ c :: e :: rest).length := by simp
  simp only [frame_at, h1, h2, h3, h4, hd, decide_True, Bool.true_and]

theorem split_two_after (l : List Nat) (n : Nat) (h : n + 2 ≤ l.length) :
    ∃ d c e rest, l = d ++ c :: e :: rest ∧ d.length = n := by
  have hlen : (l.drop n).length = l.length - n := List.length_drop n l
  have htake : (l.take n).length = n := by
    rw [List.length_take]
    omega
  rcases hdrop : l.drop n with _ | ⟨c, _ | ⟨e, rest⟩⟩
  · rw [hdrop] at hlen
    simp at hlen
    omega
  · rw [hdrop] at hlen
    simp at hlen
    omega
  · exact ⟨l.take n, c, e, rest, by rw [← hdrop, List.take_append_drop], htake⟩

theorem split_one_after (l : List Nat) (n : Nat) (h : l.length = n + 1) :
    ∃ d c, l = d ++ [c] ∧ d.length = n := by
  have hlen : (l.drop n).length = l.length - n := List.length_drop n l
  have htake : (l.take n).length = n := by
    rw [List.length_take]
    omega
  rcases hdrop : l.drop n with _ | ⟨c, _ | ⟨e, rest⟩⟩
  · rw [hdrop] at hlen
    simp at hlen
    omega
  · exact ⟨l.take n, c, by rw [← hdrop, List.take_append_drop], htake⟩
  · rw [hdrop] at hlen
    simp at hlen
    omega

/-- STX and a length byte between 1 and 255 take a receiver that waits for STX to the
data phase. -/
theorem receive_bytes_header (rx : receiver_t) (n : Nat)
    (hst : rx.state = .STATE_WAIT_STX) (h1 : 1 ≤ n) (h2 : n ≤ 255) :
    receive_bytes rx [STX, n]
      = { rx with
          state := .STATE_WAIT_DATA
          buffer := store (store rx.buffer 0 STX) 1 n
          expected_size := n
          received_size := 2 } := by
  obtain ⟨pt, st, buf, m, r, cs, pr, er, sa⟩ := rx
  simp only at hst
  subst hst
  have hne : ¬ (n = 0 ∨ n > MAX_DATA_SIZE) := by
    simp only [MAX_DATA_SIZE]; omega
  simp only [receive_bytes_cons, receive_bytes_nil, receiver_byte, if_true, hne, if_false]

/-- STX, a length byte that is 0 or above 255, and one more byte: the receiver is back
waiting for STX, with its flags as before. -/
theorem receive_bytes_bad_length (rx : receiver_t) (n x : Nat)
    (hst : rx.state = .STATE_WAIT_STX) (hn : n = 0 ∨ n > MAX_DATA_SIZE) :
    (receive_bytes rx [STX, n]).packet_ready = rx.packet_ready
    ∧ (receive_bytes rx [STX, n]).send_ack = rx.send_ack
    ∧ (receive_bytes rx [STX, n, x]).state = .STATE_WAIT_STX
    ∧ (receive_bytes rx [STX, n, x]).packet_ready = rx.packet_ready
    ∧ (receive_bytes rx [STX, n, x]).send_ack = rx.send_ack := by
  obtain ⟨pt, st, buf, m, r, cs, pr, er, sa⟩ := rx
  simp only at hst
  subst hst
  simp only [receive_bytes_cons, receive_bytes_nil, receiver_byte, if_true, hn]
  simp

/-- STX, a length `n` and at most `n + 1` further bytes: the frame is not complete, and
the flags of the receiver are as before. -/
theorem receive_bytes_partial (rx : receiver_t) (n : Nat) (l : List Nat)
    (hst : rx.state = .STATE_WAIT_STX) (h1 : 1 ≤ n) (h2 : n ≤ 255)
    (hl : l.length ≤ n + 1) (hw : l.length + 2 ≤ 255) :
    (receive_bytes rx (STX :: n :: l)).packet_ready = rx.packet_ready
    ∧ (receive_bytes rx (STX :: n :: l)).send_ack = rx.send_ack := by
  have happ : STX :: n :: l = [STX, n] ++ l := rfl
  rw [happ, receive_bytes_append, receive_bytes_header rx n hst h1 h2]
  by_cases hle : l.length ≤ n
  · rw [receive_bytes_data l _ rfl (by simp only; omega) (by simp only; omega)
      (by simp only; omega)]
    exact ⟨rfl, rfl⟩
  · obtain ⟨d, c, rfl, hd⟩ := split_one_after l n (by omega)
    rw [receive_bytes_append, receive_bytes_data d _ rfl (by simp only; omega)
      (by simp only; omega) (by simp only; simp at hw; omega)]
    have hfull : 2 + d.length = 2 + n := by omega
    simp only [hfull, if_true, receive_bytes_cons, receive_bytes_nil, receiver_byte]
    simp

/-- Soundness of the receiver within one publish: from the state that waits for STX, bytes
that hold no complete well-formed frame leave `packet_ready` and `send_ack` as they were. -/
theorem receive_bytes_sound (k : Nat) :
    ∀ (l : List Nat) (rx : receiver_t), l.length ≤ k → l.length ≤ 255 →
      rx.state = .STATE_WAIT_STX → contains_frame l = false →
        (receive_bytes rx l).packet_ready = rx.packet_ready
        ∧ (receive_bytes rx l).send_ack = rx.send_ack := by
  induction k with
  | zero =>
    intro l rx hk _ _ _
    have hl : l = [] := List.eq_nil_of_length_eq_zero (by omega)
    subst hl
    exact ⟨rfl, rfl⟩
  | succ k ih =>
    intro l rx hk h255 hst hcf
    rcases l with _ | ⟨b, l1⟩
    · exact ⟨rfl, rfl⟩
    · simp only [contains_frame, Bool.or_eq_false_iff] at hcf
      obtain ⟨hfa, hcf1⟩ := hcf
      simp only [List.length_cons] at hk h255
      by_cases hb : b = STX
      · subst hb
        rcases l1 with _ | ⟨n, l2⟩
        · obtain ⟨pt, st, buf, m, r, cs, pr, er, sa⟩ := rx
          simp only at hst
          subst hst
          simp [receive_bytes_cons, receive_bytes_nil, receiver_byte]
        · simp only [List.length_cons] at hk h255
          by_cases hn : n = 0 ∨ n > MAX_DATA_SIZE
          · rcases l2 with _ | ⟨x, l3⟩
            · have hx := receive_bytes_bad_length rx n 0 hst hn
              exact ⟨hx.1, hx.2.1⟩
            · have hx := receive_bytes_bad_length rx n x hst hn
              simp only [List.length_cons] at hk h255
              have happ : STX :: n :: x :: l3 = [STX, n, x] ++ l3 := rfl
              have hcf3 : contains_frame l3 = false := contains_frame_append [n, x] l3 hcf1
              have hrec := ih l3 (receive_bytes rx [STX, n, x]) (by omega) (by omega)
                hx.2.2.1 hcf3
              rw [happ, receive_bytes_append]
              exact ⟨hrec.1.trans hx.2.2.2.1, hrec.2.trans hx.2.2.2.2⟩
          · have h1 : 1 ≤ n := by
              simp only [MAX_DATA_SIZE] at hn; omega
            have h2 : n ≤ 255 := by
              simp only [MAX_DATA_SIZE] at hn; omega
            by_cases hshort : l2.length ≤ n + 1
            · exact receive_bytes_partial rx n l2 hst h1 h2 hshort (by omega)
            · obtain ⟨d, c, e, l3, rfl, hd⟩ := split_two_after l2 n (by omega)
              subst hd
              rw [frame_at_complete d l3 c e h1] at hfa
              have hbad : ¬ (e = ETX ∧ xor_fold d = c) := by
                rintro ⟨he, hc⟩
                simp [he, hc] at hfa
              simp only [List.length_append, List.length_cons] at hk h255
              have happ : STX :: d.length :: (d ++ c :: e :: l3)
                  = (STX :: d.length :: (d ++ [c, e])) ++ l3 := by simp
              have hcf3 : contains_frame l3 = false :=
                contains_frame_append (d.length :: (d ++ [c, e])) l3 (by simpa using hcf1)
              have hrec := ih l3 (receive_bytes rx (STX :: d.length :: (d ++ [c, e])))
                (by omega) (by omega)
                (by rw [receive_bytes_frame rx d c e hst h1 (by omega)]) hcf3
              rw [happ, receive_bytes_append]
              rw [receive_bytes_frame rx d c e hst h1 (by omega)] at hrec ⊢
              simp only [hbad, if_false] at hrec ⊢
              exact hrec
      · have hstep : receiver_byte rx b = rx := by
          obtain ⟨pt, st, buf, m, r, cs, pr, er, sa⟩ := rx
          simp only at hst
          subst hst
          simp [receiver_byte, hb]
        rw [receive_bytes_cons, hstep]
        exact ih l1 rx (by omega) (by omega) hst hcf1

/-- A fresh receiver that is handed, in one publish, at most 255 bytes that hold no
complete well-formed frame: no packet is ready and no acknowledgement is published. -/
theorem receiver_thread_no_frame (rx0 : receiver_t) (ch0 : communication_channel_t)
    (l : List Nat) (hlen : l.length ≤ 255) (hcf : contains_frame l = false) :
    (receiver_thread (init_receiver rx0)
        (publish (init_channel ch0) (ofList l) l.length)).2.1.packet_ready = false
    ∧ (receiver_thread (init_receiver rx0)
        (publish (init_channel ch0) (ofList l) l.length)).2.2.rx_ready = false := by
  have hb : bytes (publish (init_channel ch0) (ofList l) l.length).tx_buffer
      (publish (init_channel ch0) (ofList l) l.length).tx_size = l := by
    simp only [publish]
    rw [bytes_memcpy_zero, bytes_ofList]
  have hs := receive_bytes_sound l.length l (init_receiver rx0) (Nat.le_refl _) hlen rfl hcf
  have hpr : (receive_bytes (init_receiver rx0) l).packet_ready = false := hs.1
  have hsa : (receive_bytes (init_receiver rx0) l).send_ack = false := hs.2
  rw [receiver_thread_ready _ _ (Or.inl rfl) rfl, hb, receive_bytes_pt]
  simp only [hsa, Bool.false_eq_true, if_false, hpr]
  simp [publish, init_channel]

/-- C18 as stated fails: the payload 0x02, 0x01, 0x41, 0x41, 0x03 is itself a well-formed
frame, so when the leading STX of its frame is replaced by 0xFF the receiver locks onto the
STX inside the payload, sets `packet_ready` and publishes an acknowledgement. -/
theorem embedded_frame_is_accepted :
    (receiver_thread (init_receiver rx)
        (publish (init_channel channel)
          (ofList ((frame [0x02, 0x01, 0x41, 0x41, 0x03]).set 0 0xFF)) 9)).2.1.packet_ready
      = true
    ∧ (receiver_thread (init_receiver rx)
        (publish (init_channel channel)
          (ofList ((frame [0x02, 0x01, 0x41, 0x41, 0x03]).set 0 0xFF)) 9)).2.2.rx_ready = true
    ∧ ¬ ((receiver_thread (init_receiver rx)
          (publish (init_channel channel)
            (ofList ((frame [0x02, 0x01, 0x41, 0x41, 0x03]).set 0 0xFF)) 9)).2.1.packet_ready
        = false) := by
  decide

/-- C18 amended: a well-formed frame whose leading STX is replaced by a byte `x` other than
STX and whose remaining bytes, the length, the payload, the checksum and ETX, hold no
complete well-formed frame as a block of consecutive bytes, delivered in one publish to a
fresh receiver: after one step of `receiver_thread`, `rx.packet_ready` is false and no
acknowledgement is published. -/
theorem missing_stx_is_rejected (rx0 : receiver_t) (ch0 : communication_channel_t)
    (p : List Nat) (x : Nat) (_h1 : 1 ≤ p.length) (h2 : p.length + 4 ≤ 255)
    (hx : x ≠ STX) (_hx256 : x < 256)
    (hcf : contains_frame (p.length :: (p ++ [xor_fold p, ETX])) = false) :
    (receiver_thread (init_receiver rx0)
        (publish (init_channel ch0) (ofList ((frame p).set 0 x))
          (p.length + 4))).2.1.packet_ready = false
    ∧ (receiver_thread (init_receiver rx0)
        (publish (init_channel ch0) (ofList ((frame p).set 0 x))
          (p.length + 4))).2.2.rx_ready = false := by
  have hl : (frame p).set 0 x = x :: p.length :: (p ++ [xor_fold p, ETX]) := by
    rw [xor_frame_eq]
    rfl
  have hlen : (x :: p.length :: (p ++ [xor_fold p, ETX])).length = p.length + 4 := by simp
  have hcf2 : contains_frame (x :: p.length :: (p ++ [xor_fold p, ETX])) = false := by
    simp only [contains_frame, frame_at, hx, decide_False, Bool.false_and, Bool.false_or]
    exact hcf
  have := receiver_thread_no_frame rx0 ch0 _ (by rw [hlen]; omega) hcf2
  rw [hlen] at this
  rw [hl]
  exact this

/-- Witness of C18 amended: the frame of `test_receiver_missing_stx`, payload 0x41, 0x42
with the leading STX replaced by 0xFF. -/
theorem missing_stx_is_rejected_witness :
    (receiver_thread (init_receiver rx)
        (publish (init_channel channel) (ofList ((frame [0x41, 0x42]).set 0 0xFF))
          (2 + 4))).2.1.packet_ready = false :=
  (missing_stx_is_rejected rx channel [0x41, 0x42] 0xFF (by decide) (by decide) (by decide)
    (by decide) (by decide)).1

end Protothread

/-! ## T4: a suspended transmitter, and the checksum as a fold -/

namespace Protothread

/-- C23: a transmitter suspended at the `PT_WAIT_UNTIL` and stepped with `ack_received` and
`timeout` both false returns 1 and changes neither the transmitter, its packet,
`packet_size`, flags and continuation included, nor the channel: nothing is published. -/
theorem transmitter_stays_suspended (t : transmitter_t) (ch : communication_channel_t)
    (hlc : t.pt.lc = LINE_TX_WAIT) (hack : t.ack_received = false) (hto : t.timeout = false) :
    transmitter_thread t ch = (1, t, ch) := by
  simp [transmitter_thread, transmitter_wait, hlc, hack, hto, LINE_TX_WAIT]

/-- Witness of C23: a second step right after the first step of
`test_transmitter_with_ack`, before any flag is set, with the tx slot released. -/
theorem transmitter_stays_suspended_witness :
    (transmitter_thread
        (transmitter_thread { init_transmitter tx with data := ofList [0x55], data_size := 1 }
          (init_channel channel)).2.1
        (init_channel channel)).2.2.tx_ready = false :=
  congrArg (fun r => r.2.2.tx_ready)
    (transmitter_stays_suspended
      (transmitter_thread { init_transmitter tx with data := ofList [0x55], data_size := 1 }
        (init_channel channel)).2.1
      (init_channel channel) (by decide) (by decide) (by decide))

theorem xor_fold_append (a b : List Nat) : xor_fold (a ++ b) = xor_fold a ^^^ xor_fold b := by
  induction a with
  | nil => simp [xor_fold]
  | cons x a ih =>
    simp only [xor_fold, List.cons_append, List.foldr_cons] at ih ⊢
    rw [ih, Nat.xor_assoc]

theorem xor_fold_perm (l1 l2 : List Nat) (hp : l1.Perm l2) : xor_fold l1 = xor_fold l2 := by
  induction hp with
  | nil => rfl
  | cons x _ ih =>
    simp only [xor_fold, List.foldr_cons] at ih ⊢
    rw [ih]
  | swap x y l =>
    simp only [xor_fold, List.foldr_cons]
    rw [← Nat.xor_assoc, Nat.xor_comm y x, Nat.xor_assoc]
  | trans _ _ ih1 ih2 => exact ih1.trans ih2

theorem calculate_checksum_ofList (l : List Nat) :
    calculate_checksum (ofList l) l.length = xor_fold l := by
  rw [calculate_checksum_eq_xor_fold, bytes_ofList]

/-- C24: `calculate_checksum` returns the same value for a byte sequence and for every
permutation of it, and the checksum of a sequence split in two parts `a ++ b` is the XOR
of the checksums of the parts. -/
theorem checksum_order_independent (l1 l2 a b : List Nat) (hp : l1.Perm l2) :
    calculate_checksum (ofList l1) l1.length = calculate_checksum (ofList l2) l2.length
    ∧ calculate_checksum (ofList (a ++ b)) (a ++ b).length
        = calculate_checksum (ofList a) a.length ^^^ calculate_checksum (ofList b) b.length := by
  simp only [calculate_checksum_ofList]
  exact ⟨xor_fold_perm l1 l2 hp, xor_fold_append a b⟩

/-- Witness of C24: the bytes of `test_checksum_calculation` in two orders, and split
after the first. -/
theorem checksum_order_independent_witness :
    calculate_checksum (ofList [0x01, 0x02, 0x03]) [0x01, 0x02, 0x03].length
        = calculate_checksum (ofList [0x03, 0x01, 0x02]) [0x03, 0x01, 0x02].length
    ∧ calculate_checksum (ofList ([0x01] ++ [0x02, 0x03])) ([0x01] ++ [0x02, 0x03]).length
        = calculate_checksum (ofList [0x01]) [0x01].length
          ^^^ calculate_checksum (ofList [0x02, 0x03]) [0x02, 0x03].length :=
  checksum_order_independent [0x01, 0x02, 0x03] [0x03, 0x01, 0x02] [0x01] [0x02, 0x03]
    (by decide)

end Protothread

/-! ## `protocol_create_message` and the declared capacity -/

/-- While `5 + qtd` fits 8 bits, a successful `protocol_create_message` stays inside the
declared capacity: the last index written, `qtd + 3`, is below the initial `*buffer_size`. -/
theorem Trabalho2.protocol_create_message_within_capacity (dados buffer : Nat → Nat)
    (qtd buffer_size : Nat) (hq : qtd ≤ 250)
    (hs : (Trabalho2.protocol_create_message dados qtd buffer buffer_size).1
      = Trabalho2.PROTOCOL_SUCCESS) :
    qtd + 3 < buffer_size := by
  obtain ⟨-, h, -⟩ := Trabalho2.protocol_create_message_success dados buffer qtd buffer_size hs
  omega

/-- C25, at a payload of 251 bytes and a declared capacity of 10, in Trabalho2 and in
Trabalho3: `msg_size` is `(5 + 251) % 256 = 0`, so the capacity check passes,
`PROTOCOL_SUCCESS` is returned, ETX is written at index 254, which is not below 10, and
`*buffer_size` is left at 0. -/
theorem protocol_create_message_overruns_capacity :
    ((Trabalho2.protocol_create_message (fun _ => 0) 251 (fun _ => 0) 10).1
        = Trabalho2.PROTOCOL_SUCCESS
      ∧ (Trabalho2.protocol_create_message (fun _ => 0) 251 (fun _ => 0) 10).2.1 (251 + 3)
        = Trabalho2.ETX_BYTE
      ∧ (Trabalho2.protocol_create_message (fun _ => 0) 251 (fun _ => 0) 10).2.2 = 0)
    ∧ ((Trabalho3.protocol_create_message (fun _ => 0) 251 (fun _ => 0) 10).1
        = Trabalho3.PROTOCOL_SUCCESS
      ∧ (Trabalho3.protocol_create_message (fun _ => 0) 251 (fun _ => 0) 10).2.1 (251 + 3)
        = Trabalho3.ETX_BYTE
      ∧ (Trabalho3.protocol_create_message (fun _ => 0) 251 (fun _ => 0) 10).2.2 = 0)
    ∧ ¬ (251 + 3 < 10) := by
  decide

/-! ## T4: flags that stay set -/

namespace Protothread

/-- What a step of the receiver that finds the tx slot ready leaves behind, field by
field, in terms of the bytes of the slot going through the `switch`. -/
theorem receiver_thread_fields (rx : receiver_t) (ch : communication_channel_t)
    (hlc : rx.pt.lc = 0 ∨ rx.pt.lc = LINE_RX_WAIT ∨ rx.pt.lc = LINE_RX_YIELD)
    (hready : ch.tx_ready = true) :
    (receiver_thread rx ch).2.1.state
        = (receive_bytes rx (bytes ch.tx_buffer ch.tx_size)).state
    ∧ (receiver_thread rx ch).2.1.packet_ready
        = (receive_bytes rx (bytes ch.tx_buffer ch.tx_size)).packet_ready
    ∧ (receiver_thread rx ch).2.1.error
        = (receive_bytes rx (bytes ch.tx_buffer ch.tx_size)).error
    ∧ (receiver_thread rx ch).2.1.buffer
        = (receive_bytes rx (bytes ch.tx_buffer ch.tx_size)).buffer
    ∧ (receiver_thread rx ch).2.1.pt.lc = LINE_RX_YIELD
    ∧ ((receive_bytes rx (bytes ch.tx_buffer ch.tx_size)).send_ack = true →
        (receiver_thread rx ch).2.2.rx_ready = true
        ∧ (receiver_thread rx ch).2.2.rx_size = 1
        ∧ (receiver_thread rx ch).2.2.rx_buffer 0 = ACK)
    ∧ ((receive_bytes rx (bytes ch.tx_buffer ch.tx_size)).send_ack = false →
        (receiver_thread rx ch).2.2.rx_ready = ch.rx_ready) := by
  rw [receiver_thread_ready rx ch hlc hready, receive_bytes_pt]
  generalize receive_bytes rx (bytes ch.tx_buffer ch.tx_size) = R
  obtain ⟨pt, st, buf, m, r, cs, pr, er, sa⟩ := R
  cases sa
  · simp
  · simp [store]

/-- The `switch` never clears `packet_ready` or `error`. -/
theorem receiver_byte_sticky (rx : receiver_t) (b : Nat) :
    (rx.packet_ready = true → (receiver_byte rx b).packet_ready = true)
    ∧ (rx.error = true → (receiver_byte rx b).error = true) := by
  obtain ⟨pt, st, buf, n, r, cs, pr, er, sa⟩ := rx
  constructor
  · intro h
    simp only at h
    subst h
    cases st <;> simp only [receiver_byte] <;> split_ifs <;> rfl
  · intro h
    simp only at h
    subst h
    cases st <;> simp only [receiver_byte] <;> split_ifs <;> rfl

theorem receive_bytes_sticky (l : List Nat) (rx : receiver_t) :
    (rx.packet_ready = true → (receive_bytes rx l).packet_ready = true)
    ∧ (rx.error = true → (receive_bytes rx l).error = true) := by
  induction l generalizing rx with
  | nil => exact ⟨id, id⟩
  | cons b l ih =>
    rw [receive_bytes_cons]
    exact ⟨fun h => (ih _).1 ((receiver_byte_sticky rx b).1 h),
      fun h => (ih _).2 ((receiver_byte_sticky rx b).2 h)⟩

theorem receiver_thread_sticky (rx : receiver_t) (ch : communication_channel_t) :
    (rx.packet_ready = true → (receiver_thread rx ch).2.1.packet_ready = true)
    ∧ (rx.error = true → (receiver_thread rx ch).2.1.error = true) := by
  by_cases hlc : rx.pt.lc = 0 ∨ rx.pt.lc = LINE_RX_WAIT ∨ rx.pt.lc = LINE_RX_YIELD
  · cases hready : ch.tx_ready
    · simp [receiver_thread, hlc, hready]
    · have hf := receiver_thread_fields rx ch hlc hready
      rw [hf.2.1, hf.2.2.1]
      exact receive_bytes_sticky _ rx
  · simp [receiver_thread, hlc]

/-- A frame-shaped sequence delivered in one publish to a receiver that waits for STX. -/
theorem receiver_thread_frame (rx : receiver_t) (ch : communication_channel_t)
    (q : List Nat) (c e : Nat)
    (hlc : rx.pt.lc = 0 ∨ rx.pt.lc = LINE_RX_WAIT ∨ rx.pt.lc = LINE_RX_YIELD)
    (hst : rx.state = .STATE_WAIT_STX) (h1 : 1 ≤ q.length) (h2 : q.length + 4 ≤ 255) :
    (receiver_thread rx
        (publish ch (ofList (STX :: q.length :: (q ++ [c, e]))) (q.length + 4))).2.1.state
      = .STATE_WAIT_STX
    ∧ (receiver_thread rx
        (publish ch (ofList (STX :: q.length :: (q ++ [c, e])))
          (q.length + 4))).2.1.packet_ready
      = (if e = ETX ∧ xor_fold q = c then true else rx.packet_ready)
    ∧ (receiver_thread rx
        (publish ch (ofList (STX :: q.length :: (q ++ [c, e]))) (q.length + 4))).2.1.error
      = (if e = ETX ∧ xor_fold q = c then rx.error else true)
    ∧ (receiver_thread rx
        (publish ch (ofList (STX :: q.length :: (q ++ [c, e]))) (q.length + 4))).2.1.pt.lc
      = LINE_RX_YIELD := by
  have hlen : (STX :: q.length :: (q ++ [c, e])).length = q.length + 4 := by simp
  have hbytes : bytes (publish ch (ofList (STX :: q.length :: (q ++ [c, e])))
      (q.length + 4)).tx_buffer
      (publish ch (ofList (STX :: q.length :: (q ++ [c, e]))) (q.length + 4)).tx_size
      = STX :: q.length :: (q ++ [c, e]) := by
    simp only [publish]
    rw [bytes_memcpy_zero, ← hlen, bytes_ofList]
  have hf := receiver_thread_fields rx
    (publish ch (ofList (STX :: q.length :: (q ++ [c, e]))) (q.length + 4)) hlc rfl
  rw [hf.1, hf.2.1, hf.2.2.1, hf.2.2.2.2.1, hbytes, receive_bytes_frame rx q c e hst h1 h2]
  exact ⟨rfl, rfl, rfl, rfl⟩

/-- C28: `receiver_thread` never clears `rx.packet_ready` or `rx.error`: for every receiver
and every channel content, a flag that is true before a step is true after it; so after a
good frame with payload `p` and then a frame-shaped sequence with a wrong checksum or
closing byte, each delivered in one publish to a receiver fresh at the start, both flags
are set. -/
theorem receiver_flags_are_sticky (rx rx0 : receiver_t) (ch ch0 ch1 : communication_channel_t)
    (p q : List Nat) (c e : Nat) (hp1 : 1 ≤ p.length) (hp2 : p.length + 4 ≤ 255)
    (hq1 : 1 ≤ q.length) (hq2 : q.length + 4 ≤ 255) (hbad : ¬ (e = ETX ∧ xor_fold q = c)) :
    (rx.packet_ready = true → (receiver_thread rx ch).2.1.packet_ready = true)
    ∧ (rx.error = true → (receiver_thread rx ch).2.1.error = true)
    ∧ (receiver_thread
        (receiver_thread (init_receiver rx0)
          (publish (init_channel ch0) (ofList (frame p)) (p.length + 4))).2.1
        (publish ch1 (ofList (STX :: q.length :: (q ++ [c, e])))
          (q.length + 4))).2.1.packet_ready = true
    ∧ (receiver_thread
        (receiver_thread (init_receiver rx0)
          (publish (init_channel ch0) (ofList (frame p)) (p.length + 4))).2.1
        (publish ch1 (ofList (STX :: q.length :: (q ++ [c, e])))
          (q.length + 4))).2.1.error = true := by
  refine ⟨(receiver_thread_sticky rx ch).1, (receiver_thread_sticky rx ch).2, ?_, ?_⟩
  · have h1 := receiver_thread_frame (init_receiver rx0) (init_channel ch0) p (xor_fold p) ETX
      (Or.inl rfl) rfl hp1 hp2
    rw [← xor_frame_eq] at h1
    apply (receiver_thread_sticky _ _).1
    rw [h1.2.1]
    simp
  · have h1 := receiver_thread_frame (init_receiver rx0) (init_channel ch0) p (xor_fold p) ETX
      (Or.inl rfl) rfl hp1 hp2
    rw [← xor_frame_eq] at h1
    have h2 := receiver_thread_frame
      (receiver_thread (init_receiver rx0)
        (publish (init_channel ch0) (ofList (frame p)) (p.length + 4))).2.1 ch1 q c e
      (Or.inr (Or.inr h1.2.2.2)) h1.1 hq1 hq2
    rw [h2.2.2.1]
    simp [hbad]

/-- Witness of C28: the frame of `test_receiver_valid_packet`, then the frame of
`test_receiver_invalid_checksum`, with no initialisation in between. -/
theorem receiver_flags_are_sticky_witness :
    (receiver_thread
        (receiver_thread (init_receiver rx)
          (publish (init_channel channel) (ofList (frame [0x41, 0x42]))
            ([0x41, 0x42].length + 4))).2.1
        (publish channel (ofList (STX :: [0x41, 0x42].length :: ([0x41, 0x42] ++ [0xFF, ETX])))
          ([0x41, 0x42].length + 4))).2.1.packet_ready = true
    ∧ (receiver_thread
        (receiver_thread (init_receiver rx)
          (publish (init_channel channel) (ofList (frame [0x41, 0x42]))
            ([0x41, 0x42].length + 4))).2.1
        (publish channel (ofList (STX :: [0x41, 0x42].length :: ([0x41, 0x42] ++ [0xFF, ETX])))
          ([0x41, 0x42].length + 4))).2.1.error = true :=
  (receiver_flags_are_sticky rx rx channel channel channel [0x41, 0x42] [0x41, 0x42] 0xFF ETX
    (by decide) (by decide) (by decide) (by decide) (by decide)).2.2

/-- The transmitter thread never writes `timeout`. -/
theorem transmitter_thread_timeout (t : transmitter_t) (ch : communication_channel_t) :
    (transmitter_thread t ch).2.1.timeout = t.timeout := by
  simp only [transmitter_thread, transmitter_wait]
  split_ifs <;> rfl

/-- With `timeout` set and no acknowledgement, a step from the beginning of the thread
publishes the frame, passes the `PT_WAIT_UNTIL` at once and restarts. -/
theorem transmitter_thread_sticky_step (t : transmitter_t) (ch : communication_channel_t)
    (hlc : t.pt.lc = 0) (hto : t.timeout = true) (hack : t.ack_received = false) :
    (transmitter_thread t ch).1 = 1
    ∧ (transmitter_thread t ch).2.1.pt.lc = 0
    ∧ (transmitter_thread t ch).2.1.timeout = true
    ∧ (transmitter_thread t ch).2.1.ack_received = false
    ∧ (transmitter_thread t ch).2.1.data = t.data
    ∧ (transmitter_thread t ch).2.1.data_size = t.data_size := by
  simp [transmitter_thread, transmitter_wait, hlc, hto, hack]

/-- C29: `transmitter_thread` never modifies `tx.timeout`; once `timeout` is true, with
`ack_received` false and nothing else touching the transmitter, every step starts from the
beginning of the thread, publishes the frame again, returns 1 and ends with the
continuation at 0, so the transmitter never suspends at the `PT_WAIT_UNTIL` again. -/
theorem sticky_timeout_resends_every_step (t : transmitter_t)
    (chs : List communication_channel_t)
    (hlc : t.pt.lc = 0) (hto : t.timeout = true) (hack : t.ack_received = false) :
    (∀ (u : transmitter_t) (ch : communication_channel_t),
        (transmitter_thread u ch).2.1.timeout = u.timeout)
    ∧ ∀ e ∈ run_untouched t chs,
        e.1 = 0
        ∧ e.2.1 = 1
        ∧ e.2.2.1.pt.lc = 0
        ∧ e.2.2.1.pt.lc ≠ LINE_TX_WAIT
        ∧ e.2.2.1.timeout = true
        ∧ e.2.2.2.tx_ready = true
        ∧ e.2.2.2.tx_size = (4 + t.data_size) % 256
        ∧ bytes e.2.2.2.tx_buffer e.2.2.2.tx_size = published_frame t.data t.data_size := by
  refine ⟨transmitter_thread_timeout, ?_⟩
  induction chs generalizing t with
  | nil =>
    intro e he
    simp [run_untouched] at he
  | cons ch rest ih =>
    have hs := transmitter_thread_sticky_step t ch hlc hto hack
    have hp := transmitter_thread_publishes t ch hlc
    intro e he
    simp only [run_untouched, List.mem_cons] at he
    rcases he with he | he
    · subst he
      refine ⟨hlc, hs.1, hs.2.1, ?_, hs.2.2.1, hp.1, hp.2.1, hp.2.2⟩
      simp only
      rw [hs.2.1]
      decide
    · have := ih (transmitter_thread t ch).2.1 hs.2.1 hs.2.2.1 hs.2.2.2.1 e he
      rw [hs.2.2.2.2.1, hs.2.2.2.2.2] at this
      exact this

/-- Witness of C29: the transmitter of `test_transmitter_with_timeout` with the timeout
already signalled, stepped twice; the entry of the second step. -/
theorem sticky_timeout_resends_every_step_witness :
    (transmitter_thread
        (transmitter_thread
          { init_transmitter tx with data := ofList [0x99], data_size := 1, timeout := true }
          (init_channel channel)).2.1
        (init_channel channel)).1 = 1 :=
  ((sticky_timeout_resends_every_step
    { init_transmitter tx with data := ofList [0x99], data_size := 1, timeout := true }
    [init_channel channel, init_channel channel] rfl rfl rfl).2 _
    (List.Mem.tail _ (List.Mem.head _))).2.1

end Protothread

/-! ## T4: the data phase and the length byte -/

namespace Protothread

/-- The data phase for lengths up to 253: after STX and `N` the receiver is in
`STATE_WAIT_DATA`, and after the `N` bytes `d` it is in `STATE_WAIT_CHK`. -/
theorem receive_bytes_data_phase (rx : receiver_t) (d : List Nat)
    (hst : rx.state = .STATE_WAIT_STX) (h1 : 1 ≤ d.length) (h2 : d.length ≤ 253) :
    (receive_bytes rx [STX, d.length]).state = .STATE_WAIT_DATA
    ∧ (receive_bytes rx (STX :: d.length :: d)).state = .STATE_WAIT_CHK := by
  have hh := receive_bytes_header rx d.length hst h1 (by omega)
  have happ : STX :: d.length :: d = [STX, d.length] ++ d := rfl
  rw [happ, receive_bytes_append, hh]
  rw [receive_bytes_data d _ rfl (by simp only; omega) (by simp only; omega)
    (by simp only; omega)]
  simp

/-- With an expected size of 254 or 255 the data phase has no end: `received_size` is 8 bits
wide and never reaches `2 + expected_size`. -/
theorem receiver_byte_stuck (rx : receiver_t) (b : Nat)
    (hst : rx.state = .STATE_WAIT_DATA) (hn : 254 ≤ rx.expected_size) :
    (receiver_byte rx b).state = .STATE_WAIT_DATA
    ∧ (receiver_byte rx b).expected_size = rx.expected_size := by
  obtain ⟨pt, st, buf, n, r, cs, pr, er, sa⟩ := rx
  simp only at hst hn
  subst hst
  have hlt : (r + 1) % 256 < 256 := Nat.mod_lt _ (by decide)
  have hno : ¬ (2 + n ≤ (r + 1) % 256) := by omega
  simp [receiver_byte, hno]

theorem receive_bytes_stuck (l : List Nat) (rx : receiver_t)
    (hst : rx.state = .STATE_WAIT_DATA) (hn : 254 ≤ rx.expected_size) :
    (receive_bytes rx l).state = .STATE_WAIT_DATA
    ∧ (receive_bytes rx l).expected_size = rx.expected_size := by
  induction l generalizing rx with
  | nil => exact ⟨hst, rfl⟩
  | cons b l ih =>
    have hb := receiver_byte_stuck rx b hst hn
    have := ih (receiver_byte rx b) hb.1 (by rw [hb.2]; exact hn)
    rw [receive_bytes_cons]
    exact ⟨this.1, this.2.trans hb.2⟩

theorem receiver_thread_state_size (rx : receiver_t) (ch : communication_channel_t)
    (hlc : rx.pt.lc = 0 ∨ rx.pt.lc = LINE_RX_WAIT ∨ rx.pt.lc = LINE_RX_YIELD)
    (hready : ch.tx_ready = true) :
    (receiver_thread rx ch).2.1.state
        = (receive_bytes rx (bytes ch.tx_buffer ch.tx_size)).state
    ∧ (receiver_thread rx ch).2.1.expected_size
        = (receive_bytes rx (bytes ch.tx_buffer ch.tx_size)).expected_size
    ∧ (receiver_thread rx ch).2.1.pt.lc = LINE_RX_YIELD := by
  rw [receiver_thread_ready rx ch hlc hready, receive_bytes_pt]
  generalize receive_bytes rx (bytes ch.tx_buffer ch.tx_size) = R
  obtain ⟨pt, st, buf, m, r, cs, pr, er, sa⟩ := R
  cases sa <;> simp

/-- C21, at the length byte 254: after STX and 254 the receiver is in `STATE_WAIT_DATA`, and
after 254 further bytes, in the same publish or in a second one, it is still in
`STATE_WAIT_DATA`, not in `STATE_WAIT_CHK`. -/
theorem data_phase_never_ends_at_254 :
    (receive_bytes (init_receiver rx) [STX, 254]).state = .STATE_WAIT_DATA
    ∧ (receive_bytes (init_receiver rx) (STX :: 254 :: List.replicate 254 0)).state
        = .STATE_WAIT_DATA
    ∧ (receive_bytes (init_receiver rx) (STX :: 254 :: List.replicate 254 0)).state
        ≠ .STATE_WAIT_CHK
    ∧ (receiver_thread
        (receiver_thread (init_receiver rx)
          (publish (init_channel channel) (ofList [STX, 254]) 2)).2.1
        (publish channel (ofList (List.replicate 254 0)) 254)).2.1.state
        = .STATE_WAIT_DATA := by
  have hh := receive_bytes_header (init_receiver rx) 254 rfl (by decide) (by decide)
  have hs : (receive_bytes (init_receiver rx) (STX :: 254 :: List.replicate 254 0)).state
      = .STATE_WAIT_DATA := by
    have happ : STX :: 254 :: List.replicate 254 0 = [STX, 254] ++ List.replicate 254 0 := rfl
    rw [happ, receive_bytes_append, hh]
    exact (receive_bytes_stuck _ _ rfl (by decide)).1
  refine ⟨by rw [hh], hs, by rw [hs]; decide, ?_⟩
  have hb1 : bytes (publish (init_channel channel) (ofList [STX, 254]) 2).tx_buffer
      (publish (init_channel channel) (ofList [STX, 254]) 2).tx_size = [STX, 254] := by
    decide
  have hf1 := receiver_thread_state_size (init_receiver rx)
    (publish (init_channel channel) (ofList [STX, 254]) 2) (Or.inl rfl) rfl
  rw [hb1, hh] at hf1
  have hf2 := receiver_thread_state_size
    (receiver_thread (init_receiver rx)
      (publish (init_channel channel) (ofList [STX, 254]) 2)).2.1
    (publish channel (ofList (List.replicate 254 0)) 254)
    (Or.inr (Or.inr hf1.2.2)) rfl
  rw [hf2.1]
  exact (receive_bytes_stuck _ _ hf1.1 (by rw [hf1.2.1])).1

/-- C22 as stated fails: after STX and a length byte 0 the receiver is in `STATE_ERROR`, not
in `STATE_WAIT_STX`, and the STX of a well-formed frame that starts at the very next byte is
spent on leaving `STATE_ERROR`: the frame is not accepted and no acknowledgement is sent. -/
theorem zero_length_eats_next_byte :
    (receive_bytes (init_receiver rx) [STX, 0]).state = .STATE_ERROR
    ∧ ¬ ((receive_bytes (init_receiver rx) [STX, 0]).state = .STATE_WAIT_STX)
    ∧ (receiver_thread (init_receiver rx)
        (publish (init_channel channel) (ofList ([STX, 0] ++ frame [0x41])) 7)).2.1.packet_ready
        = false
    ∧ (receiver_thread (init_receiver rx)
        (publish (init_channel channel) (ofList ([STX, 0] ++ frame [0x41])) 7)).2.2.rx_ready
        = false := by
  decide

/-- The length byte 0 and one more byte take a receiver that waits for the length back to
the state that waits for STX, with its flags as they were and `received_size` at 0. -/
theorem receive_bytes_zero_length (rx : receiver_t) (x : Nat)
    (hst : rx.state = .STATE_WAIT_QTD) :
    (receiver_byte rx 0).state = .STATE_ERROR
    ∧ (receiver_byte rx 0).error = rx.error
    ∧ (receive_bytes rx [0, x]).state = .STATE_WAIT_STX
    ∧ (receive_bytes rx [0, x]).error = rx.error
    ∧ (receive_bytes rx [0, x]).packet_ready = rx.packet_ready
    ∧ (receive_bytes rx [0, x]).received_size = 0 := by
  obtain ⟨pt, st, buf, n, r, cs, pr, er, sa⟩ := rx
  simp only at hst
  subst hst
  simp [receive_bytes_cons, receive_bytes_nil, receiver_byte]

/-- C22 amended: a receiver that waits for the length byte and receives 0 enters
`STATE_ERROR` without setting `rx.error`; the next byte, whatever its value, is dropped and
takes it back to `STATE_WAIT_STX` with `received_size` reset to 0, still without setting
`rx.error`, so that a well-formed frame that starts one byte later is accepted:
`packet_ready` is set and ACK is published. -/
theorem zero_length_recovers_after_one_byte (rx : receiver_t) (ch : communication_channel_t)
    (x : Nat) (p : List Nat) (hst : rx.state = .STATE_WAIT_QTD)
    (hlc : rx.pt.lc = 0 ∨ rx.pt.lc = LINE_RX_WAIT ∨ rx.pt.lc = LINE_RX_YIELD)
    (h1 : 1 ≤ p.length) (h2 : p.length + 6 ≤ 255) :
    (receiver_byte rx 0).state = .STATE_ERROR
    ∧ (receiver_byte rx 0).error = rx.error
    ∧ (receiver_byte (receiver_byte rx 0) x).state = .STATE_WAIT_STX
    ∧ (receiver_byte (receiver_byte rx 0) x).error = rx.error
    ∧ (receiver_byte (receiver_byte rx 0) x).received_size = 0
    ∧ (receiver_thread rx
        (publish ch (ofList (0 :: x :: frame p)) (p.length + 6))).2.1.packet_ready = true
    ∧ (receiver_thread rx
        (publish ch (ofList (0 :: x :: frame p)) (p.length + 6))).2.1.error = rx.error
    ∧ (receiver_thread rx
        (publish ch (ofList (0 :: x :: frame p)) (p.length + 6))).2.2.rx_ready = true
    ∧ (receiver_thread rx
        (publish ch (ofList (0 :: x :: frame p)) (p.length + 6))).2.2.rx_buffer 0 = ACK := by
  have hz := receive_bytes_zero_length rx x hst
  have hlen : (0 :: x :: frame p).length = p.length + 6 := by simp [frame]
  have hbytes : bytes (publish ch (ofList (0 :: x :: frame p)) (p.length + 6)).tx_buffer
      (publish ch (ofList (0 :: x :: frame p)) (p.length + 6)).tx_size
      = 0 :: x :: frame p := by
    simp only [publish]
    rw [bytes_memcpy_zero, ← hlen, bytes_ofList]
  have hsplit : receive_bytes rx (0 :: x :: frame p)
      = receive_bytes (receive_bytes rx [0, x]) (STX :: p.length :: (p ++ [xor_fold p, ETX])) := by
    rw [← xor_frame_eq]
    rfl
  have hfr := receive_bytes_frame (receive_bytes rx [0, x]) p (xor_fold p) ETX hz.2.2.1 h1
    (by omega)
  have hf := receiver_thread_fields rx
    (publish ch (ofList (0 :: x :: frame p)) (p.length + 6)) hlc rfl
  rw [hbytes, hsplit, hfr] at hf
  simp only [and_self, if_true] at hf
  refine ⟨hz.1, hz.2.1, hz.2.2.1, hz.2.2.2.1, hz.2.2.2.2.2, hf.2.1, ?_,
    (hf.2.2.2.2.2.1 trivial).1, (hf.2.2.2.2.2.1 trivial).2.2⟩
  rw [hf.2.2.1]
  exact hz.2.2.2.1

/-- Witness of C22 amended: STX, a length byte 0 and a byte 0xFF, then the frame of the
payload 0x41, in one publish to a fresh receiver. -/
theorem zero_length_recovers_after_one_byte_witness :
    (receiver_byte (receiver_byte (receiver_byte (init_receiver rx) STX) 0) 0xFF).received_size
        = 0
    ∧ (receiver_thread (receiver_byte (init_receiver rx) STX)
        (publish (init_channel channel) (ofList (0 :: 0xFF :: frame [0x41]))
          ([0x41].length + 6))).2.1.packet_ready = true :=
  ⟨(zero_length_recovers_after_one_byte (receiver_byte (init_receiver rx) STX)
      (init_channel channel) 0xFF [0x41] (by decide) (Or.inl (by decide)) (by decide)
      (by decide)).2.2.2.2.1,
    (zero_length_recovers_after_one_byte (receiver_byte (init_receiver rx) STX)
      (init_channel channel) 0xFF [0x41] (by decide) (Or.inl (by decide)) (by decide)
      (by decide)).2.2.2.2.2.1⟩

end Protothread

/-! ## Trabalho2: what a success means -/

namespace Trabalho2

theorem payload_snoc (dd : Nat → Nat) (d : List Nat) (b : Nat)
    (hd : ∀ i, i < d.length → dd i = d.getD i 0) :
    ∀ i, i < (d ++ [b]).length → store dd d.length b i = (d ++ [b]).getD i 0 := by
  intro i hi
  simp only [List.length_append, List.length_singleton] at hi
  by_cases hid : i = d.length
  · subst hid
    rw [List.getD_append_right _ _ _ _ (Nat.le_refl _)]
    simp [store]
  · have hlt : i < d.length := by omega
    rw [List.getD_append _ _ _ _ hlt, ← hd i hlt]
    simp [store, hid]

theorem sum_snoc_mod (d : List Nat) (b : Nat) :
    (d.sum % 256 + b) % 256 = (d ++ [b]).sum % 256 := by
  simp only [List.sum_append, List.sum_cons, List.sum_nil, Nat.add_zero]
  omega

/-- One call keeps `frame_progress`: what the state says about the bytes fed so far stays
true with the new byte added. -/
theorem frame_progress_step (h : ProtocolHandler) (l : List Nat) (b : Nat) (hb : b < 256)
    (hp : frame_progress h l) :
    frame_progress (protocol_process_byte h b).2 (l ++ [b]) := by
  obtain ⟨st, q, dd, k, r, cs, m⟩ := h
  cases st
  · by_cases hstx : b = STX_BYTE
    · simp only [protocol_process_byte, hstx, if_true, frame_progress]
      exact ⟨⟨l, rfl⟩, by simp⟩
    · simp only [protocol_process_byte, hstx, if_false, frame_progress]
  · simp only [frame_progress] at hp
    obtain ⟨⟨pre, hl⟩, hk, hcs⟩ := hp
    by_cases hpos : b > 0
    · simp only [protocol_process_byte, hpos, if_true, frame_progress, payload_so_far]
      refine ⟨pre, [], ?_, hk.symm, ?_, ?_, ?_, ?_, ?_⟩
      · rw [hl]; simp
      · rw [hk]; exact hpos
      · exact hpos
      · omega
      · rw [hcs]; rfl
      · intro i hi
        simp at hi
    · simp only [protocol_process_byte, hpos, if_false, frame_progress]
  · simp only [frame_progress, payload_so_far] at hp
    obtain ⟨pre, d, hl, hdk, hkq, hq1, hq2, hcs, hdd⟩ := hp
    have hstep := protocol_process_byte_data
      (⟨.STATE_WAIT_DATA, q, dd, k, r, cs, m⟩ : ProtocolHandler) b rfl hkq hq2
    rw [hstep]
    have hl2 : l ++ [b] = pre ++ STX_BYTE :: q :: (d ++ [b]) := by rw [hl]; simp
    have hsum : (cs + b) % 256 = (d ++ [b]).sum % 256 := by
      rw [hcs]; exact sum_snoc_mod d b
    have hdados : ∀ i, i < (d ++ [b]).length → store dd k b i = (d ++ [b]).getD i 0 := by
      rw [← hdk]; exact payload_snoc dd d b hdd
    have hlen : (d ++ [b]).length = k + 1 := by simp [hdk]
    by_cases hlast : k + 1 = q
    · simp only [hlast, if_true, frame_progress, payload_so_far]
      exact ⟨pre, d ++ [b], hl2, by rw [hlen, hlast], hq1, hq2, hsum, hdados⟩
    · simp only [hlast, if_false, frame_progress, payload_so_far]
      exact ⟨pre, d ++ [b], hl2, hlen, by omega, hq1, hq2, hsum, hdados⟩
  · simp only [frame_progress, payload_so_far] at hp
    obtain ⟨pre, d, hl, hdq, hq1, hq2, hcs, hdd⟩ := hp
    simp only [protocol_process_byte, frame_progress, payload_so_far]
    exact ⟨pre, d, by rw [hl]; simp, hdq, hq1, hq2, hcs, hdd⟩
  · simp only [frame_progress, payload_so_far] at hp
    obtain ⟨pre, d, hl, hdq, hq1, hq2, hcs, hdd⟩ := hp
    by_cases hetx : b = ETX_BYTE
    · by_cases hc : cs = r
      · simp only [protocol_process_byte, hetx, hc, if_true, frame_progress, payload_so_far]
        refine ⟨pre, d, ?_, hdq, hq1, hq2, by rw [← hc]; exact hcs, hdd⟩
        rw [hl, sum_frame_eq, hdq, ← hcs, hc]
        simp
      · simp only [protocol_process_byte, hetx, hc, if_true, if_false, frame_progress]
    · simp only [protocol_process_byte, hetx, if_false, frame_progress]
  · simp only [protocol_process_byte, protocol_reset, frame_progress]
  · simp only [protocol_process_byte, protocol_reset, frame_progress]

/-- Any bytes keep `frame_progress`. -/
theorem frame_progress_run (l : List Nat) (l0 : List Nat) (h : ProtocolHandler)
    (hl : ∀ x ∈ l, x < 256) (hp : frame_progress h l0) :
    frame_progress (process_bytes h l).2 (l0 ++ l) := by
  induction l generalizing h l0 with
  | nil => simpa [process_bytes] using hp
  | cons b l ih =>
    have hb : b < 256 := hl b (List.mem_cons_self b l)
    have := ih (l0 ++ [b]) (protocol_process_byte h b).2
      (fun x hx => hl x (List.mem_cons_of_mem b hx)) (frame_progress_step h l0 b hb hp)
    simpa [process_bytes] using this

/-- A call returns `PROTOCOL_SUCCESS` only on entering `STATE_MESSAGE_OK`. -/
theorem success_enters_message_ok (h : ProtocolHandler) (b : Nat)
    (hs : (protocol_process_byte h b).1 = PROTOCOL_SUCCESS) :
    (protocol_process_byte h b).2.state = .STATE_MESSAGE_OK := by
  obtain ⟨st, q, dd, k, r, cs, m⟩ := h
  revert hs
  cases st
  · by_cases hb : b = STX_BYTE <;>
      simp [protocol_process_byte, hb, PROTOCOL_WAITING, PROTOCOL_SUCCESS]
  · by_cases hb : b > 0 <;>
      simp [protocol_process_byte, hb, PROTOCOL_WAITING, PROTOCOL_SUCCESS]
  · by_cases hq : q ≤ (k + 1) % 256 <;>
      simp [protocol_process_byte, hq, PROTOCOL_WAITING, PROTOCOL_SUCCESS]
  · simp [protocol_process_byte, PROTOCOL_WAITING, PROTOCOL_SUCCESS]
  · by_cases hb : b = ETX_BYTE
    · by_cases hc : cs = r <;>
        simp [protocol_process_byte, hb, hc, PROTOCOL_ERROR, PROTOCOL_SUCCESS]
    · simp [protocol_process_byte, hb, PROTOCOL_ERROR, PROTOCOL_SUCCESS]
  · simp [protocol_process_byte, PROTOCOL_WAITING, PROTOCOL_SUCCESS]
  · simp [protocol_process_byte, PROTOCOL_WAITING, PROTOCOL_SUCCESS]

/-- C26: for every byte sequence `l` fed to a fresh handler, if the call for the next byte
`b` returns `PROTOCOL_SUCCESS`, then the bytes fed, `b` included, end with a frame STX, `n`,
`d`, `c`, ETX where `1 ≤ n ≤ 255`, `d` has `n` bytes and `c` is the sum of `d` modulo 256;
at that moment `qtd_dados` is `n` and `dados[0 .. n)` is `d`. -/
theorem success_is_sound (h0 : ProtocolHandler) (l : List Nat) (b : Nat)
    (hl : ∀ x ∈ l, x < 256) (hb : b < 256)
    (hs : (protocol_process_byte (process_bytes (protocol_init h0) l).2 b).1
      = PROTOCOL_SUCCESS) :
    ∃ pre d, 1 ≤ d.length ∧ d.length ≤ 255
      ∧ l ++ [b] = pre ++ ([STX_BYTE, d.length] ++ d ++ [d.sum % 256, ETX_BYTE])
      ∧ protocol_get_data_count
          (protocol_process_byte (process_bytes (protocol_init h0) l).2 b).2 = d.length
      ∧ ∀ i, i < d.length →
          protocol_get_data
            (protocol_process_byte (process_bytes (protocol_init h0) l).2 b).2 i
            = d.getD i 0 := by
  have hrun := frame_progress_run l [] (protocol_init h0) hl (by simp [frame_progress, protocol_init])
  have hstep := frame_progress_step _ _ b hb hrun
  have hok := success_enters_message_ok _ b hs
  unfold frame_progress at hstep
  rw [hok] at hstep
  simp only [payload_so_far, List.nil_append] at hstep
  obtain ⟨pre, d, hfr, hdq, hq1, hq2, -, hdd⟩ := hstep
  refine ⟨pre, d, by omega, by omega, ?_, hdq.symm, hdd⟩
  rw [hfr]
  rfl

/-- Witness of C26: the frame of `test_receive_valid_message` after two bytes of garbage. -/
theorem success_is_sound_witness :
    ∃ pre d, 1 ≤ d.length ∧ d.length ≤ 255
      ∧ [0xFF, 0x00, 0x02, 2, 0x10, 0x20, 0x30] ++ [0x03]
          = pre ++ ([STX_BYTE, d.length] ++ d ++ [d.sum % 256, ETX_BYTE])
      ∧ protocol_get_data_count
          (protocol_process_byte
            (process_bytes (protocol_init default) [0xFF, 0x00, 0x02, 2, 0x10, 0x20, 0x30]).2
            0x03).2 = d.length
      ∧ ∀ i, i < d.length →
          protocol_get_data
            (protocol_process_byte
              (process_bytes (protocol_init default)
                [0xFF, 0x00, 0x02, 2, 0x10, 0x20, 0x30]).2 0x03).2 i
            = d.getD i 0 :=
  success_is_sound default [0xFF, 0x00, 0x02, 2, 0x10, 0x20, 0x30] 0x03 (by decide)
    (by decide) (by decide)

/-- C27: in every state of the handler reached from `protocol_init` by a sequence of bytes,
`state == STATE_WAIT_DATA` implies `dados_count < qtd_dados`; with `qtd_dados ≤ 255` the
write `dados[dados_count]` is inside the `MAX_DATA_SIZE` bytes of the buffer and
`dados_count++` does not wrap. -/
theorem data_write_in_bounds (h0 : ProtocolHandler) (l : List Nat)
    (hl : ∀ x ∈ l, x < 256)
    (hst : (process_bytes (protocol_init h0) l).2.state = .STATE_WAIT_DATA) :
    (process_bytes (protocol_init h0) l).2.dados_count
        < (process_bytes (protocol_init h0) l).2.qtd_dados
    ∧ (process_bytes (protocol_init h0) l).2.dados_count < MAX_DATA_SIZE
    ∧ ((process_bytes (protocol_init h0) l).2.dados_count + 1) % 256
        = (process_bytes (protocol_init h0) l).2.dados_count + 1 := by
  have hrun := frame_progress_run l [] (protocol_init h0) hl (by simp [frame_progress, protocol_init])
  unfold frame_progress at hrun
  rw [hst] at hrun
  simp only [payload_so_far] at hrun
  obtain ⟨pre, d, -, -, hkq, -, hq2, -, -⟩ := hrun
  refine ⟨hkq, ?_, ?_⟩
  · simp only [MAX_DATA_SIZE]; omega
  · exact Nat.mod_eq_of_lt (by omega)

/-- Witness of C27: a handler in the middle of the data of `test_receive_valid_message`. -/
theorem data_write_in_bounds_witness :
    (process_bytes (protocol_init default) [0x02, 2, 0x10]).2.dados_count
      < (process_bytes (protocol_init default) [0x02, 2, 0x10]).2.qtd_dados :=
  (data_write_in_bounds default [0x02, 2, 0x10] (by decide) (by decide)).1

end Trabalho2
